import Mathlib

/-!
Verification of the magnetrun field/format subsystem.

Shallow embedding of the Python source under `src/magnetrun/`:
pure data manipulation becomes Lean functions, mutable object state becomes
explicit state passing, Python exceptions become `Except`/`Option` values,
and the external `pint` unit library becomes an abstract registry of
(possibly failing) parse/convert operations, exactly mirroring which calls
can raise in the source.
-/

namespace Magnetrun

/-! ## Association-list helpers

Python `dict`s are insertion-ordered maps; we model them as association
lists with first-match lookup and position-preserving upsert
(`d[k] = v` keeps the position of an existing key, appends a fresh one). -/

/-- First-match lookup in an association list (Python `d.get(k)`). -/
def alookup {β : Type} (l : List (String × β)) (k : String) : Option β :=
  match l with
  | [] => none
  | p :: t => if p.1 = k then some p.2 else alookup t k

/-- Position-preserving insert-or-update (Python `d[k] = v`). -/
def upsert {β : Type} (l : List (String × β)) (k : String) (v : β) :
    List (String × β) :=
  match l with
  | [] => [(k, v)]
  | p :: t => if p.1 = k then (p.1, v) :: t else p :: upsert t k v

theorem alookup_upsert_self {β : Type} (l : List (String × β)) (k : String) (v : β) :
    alookup (upsert l k v) k = some v := by
  induction l with
  | nil => simp [alookup, upsert]
  | cons p t ih =>
      by_cases h : p.1 = k
      · simp [alookup, upsert, h]
      · simp [alookup, upsert, h, ih]

theorem alookup_upsert_ne {β : Type} (l : List (String × β)) (k k' : String) (v : β)
    (h : k' ≠ k) : alookup (upsert l k v) k' = alookup l k' := by
  induction l with
  | nil => simp [alookup, upsert, Ne.symm h]
  | cons p t ih =>
      by_cases hpk : p.1 = k
      · subst hpk
        simp [alookup, upsert, Ne.symm h]
      · by_cases hp : p.1 = k'
        · simp [alookup, upsert, hpk, hp, h]
        · simp [alookup, upsert, hpk, hp, ih]

theorem upsert_of_not_mem {β : Type} (l : List (String × β)) (k : String) (v : β)
    (h : k ∉ l.map Prod.fst) : upsert l k v = l ++ [(k, v)] := by
  induction l with
  | nil => simp [upsert]
  | cons p t ih =>
      simp only [List.map_cons, List.mem_cons] at h
      push_neg at h
      simp [upsert, Ne.symm h.1, ih h.2]

theorem keys_upsert_of_not_mem {β : Type} (l : List (String × β)) (k : String) (v : β)
    (h : k ∉ l.map Prod.fst) :
    (upsert l k v).map Prod.fst = l.map Prod.fst ++ [k] := by
  rw [upsert_of_not_mem l k v h]; simp

theorem alookup_eq_none_of_not_mem {β : Type} (l : List (String × β)) (k : String)
    (h : k ∉ l.map Prod.fst) : alookup l k = none := by
  induction l with
  | nil => rfl
  | cons p t ih =>
      simp only [List.map_cons, List.mem_cons] at h
      push_neg at h
      simp [alookup, Ne.symm h.1, ih h.2]

theorem alookup_isSome_of_mem {β : Type} (l : List (String × β)) (k : String)
    (h : k ∈ l.map Prod.fst) : (alookup l k).isSome := by
  induction l with
  | nil => simp at h
  | cons p t ih =>
      by_cases hp : p.1 = k
      · simp [alookup, hp]
      · simp only [List.map_cons, List.mem_cons] at h
        rcases h with h | h
        · exact absurd h.symm hp
        · simp [alookup, hp, ih h]

/-! ## FieldType (`src/magnetrun/core/fields/field_types.py`) -/

/-- The closed `FieldType` enumeration. -/
inductive FieldType
  | TIME | MAGNETIC_FIELD | CURRENT | VOLTAGE | TEMPERATURE | PRESSURE
  | FLOW_RATE | POWER | ROTATION_SPEED | PERCENTAGE | RESISTANCE
  | COORDINATE | LENGTH | AREA | VOLUME | INDEX
  deriving DecidableEq, Repr

/-- The `.value` string of each enum member. -/
def FieldType.value : FieldType → String
  | .TIME => "time"
  | .MAGNETIC_FIELD => "magnetic_field"
  | .CURRENT => "current"
  | .VOLTAGE => "voltage"
  | .TEMPERATURE => "temperature"
  | .PRESSURE => "pressure"
  | .FLOW_RATE => "flow_rate"
  | .POWER => "power"
  | .ROTATION_SPEED => "rotation_speed"
  | .PERCENTAGE => "percentage"
  | .RESISTANCE => "resistance"
  | .COORDINATE => "coordinate"
  | .LENGTH => "length"
  | .AREA => "area"
  | .VOLUME => "volume"
  | .INDEX => "index"

/-- `FieldType(s)`: value-to-member lookup; `none` models the `ValueError`
raised on an unknown value. -/
def FieldType.fromValue (s : String) : Option FieldType :=
  if s = "time" then some .TIME
  else if s = "magnetic_field" then some .MAGNETIC_FIELD
  else if s = "current" then some .CURRENT
  else if s = "voltage" then some .VOLTAGE
  else if s = "temperature" then some .TEMPERATURE
  else if s = "pressure" then some .PRESSURE
  else if s = "flow_rate" then some .FLOW_RATE
  else if s = "power" then some .POWER
  else if s = "rotation_speed" then some .ROTATION_SPEED
  else if s = "percentage" then some .PERCENTAGE
  else if s = "resistance" then some .RESISTANCE
  else if s = "coordinate" then some .COORDINATE
  else if s = "length" then some .LENGTH
  else if s = "area" then some .AREA
  else if s = "volume" then some .VOLUME
  else if s = "index" then some .INDEX
  else none

theorem FieldType.fromValue_value (ft : FieldType) : FieldType.fromValue ft.value = some ft := by
  cases ft <;> rfl

/-! ## Field (`src/magnetrun/core/fields/field.py`)

The `pint` unit registry is modelled abstractly: unit objects are opaque
tokens, and the registry supplies the operations the source calls, each
returning `Except` exactly where the `pint` call can raise. -/

/-- Opaque stand-in for a `pint` unit object. -/
abbrev UnitObj := String

/-- Abstract model of a `pint.UnitRegistry` as used by the source:
`parse` is `ureg.parse_expression` (can raise), `dimensionless` is
`ureg.dimensionless`, `qto` is `(value * source_unit).to(target).magnitude`
(can raise on dimensional incompatibility), `dimensionality` is
`str(unit_obj.dimensionality)` — which can itself raise, because
`parse_expression` returns a plain number for a numeric unit string such
as `"2"`, and a number has no `.dimensionality` attribute. -/
structure UnitRegistry where
  parse : String → Except String UnitObj
  dimensionless : UnitObj
  qto : ℚ → UnitObj → UnitObj → Except String ℚ
  dimensionality : UnitObj → Except String String

/-- A `Field` dataclass instance. -/
structure Field where
  name : String
  field_type : FieldType
  unit : String
  symbol : String
  description : String
  deriving DecidableEq, Repr

/-- `Field._get_default_symbol`. The Python `symbol_map.get(self.field_type,
self.name)` fallback to `self.name` is unreachable: the map covers every
`FieldType` member, so the default is listed exhaustively here. -/
def FieldType.defaultSymbol : FieldType → String
  | .TIME => "t"
  | .MAGNETIC_FIELD => "B"
  | .CURRENT => "I"
  | .VOLTAGE => "U"
  | .TEMPERATURE => "T"
  | .PRESSURE => "P"
  | .FLOW_RATE => "Q"
  | .POWER => "P"
  | .ROTATION_SPEED => "ω"
  | .PERCENTAGE => "%"
  | .RESISTANCE => "R"
  | .COORDINATE => "x"
  | .LENGTH => "L"
  | .AREA => "A"
  | .VOLUME => "V"
  | .INDEX => "idx"

/-- The `Field` constructor including `__post_init__`: an empty symbol is
replaced by the type-derived default. -/
def mkField (name : String) (ft : FieldType) (unit symbol description : String) : Field :=
  { name := name, field_type := ft, unit := unit,
    symbol := if symbol = "" then ft.defaultSymbol else symbol,
    description := description }

/-- `Field.get_unit_object`: parse the unit string, falling back to
dimensionless on any parse failure (never raises). -/
def Field.get_unit_object (f : Field) (u : UnitRegistry) : UnitObj :=
  match u.parse f.unit with
  | .ok o => o
  | .error _ => u.dimensionless

/-- `Field.convert_value`: re-express `v` in `target`; on any failure in the
`try` block (unparsable target, incompatible dimensions) return `v`. -/
def Field.convert_value (f : Field) (v : ℚ) (target : String) (u : UnitRegistry) : ℚ :=
  match u.parse target with
  | .error _ => v
  | .ok tgt =>
      match u.qto v (f.get_unit_object u) tgt with
      | .ok m => m
      | .error _ => v

/-- `Field.convert_values`: elementwise `convert_value`. -/
def Field.convert_values (f : Field) (vs : List ℚ) (target : String) (u : UnitRegistry) :
    List ℚ :=
  vs.map (fun v => f.convert_value v target u)

/-- Serialized form of a field (`Field.to_dict` output / `from_dict` input). -/
structure FieldDict where
  name : String
  field_type : String
  unit : String
  symbol : String
  description : String
  deriving DecidableEq, Repr

/-- `Field.to_dict`. -/
def Field.to_dict (f : Field) : FieldDict :=
  { name := f.name, field_type := f.field_type.value, unit := f.unit,
    symbol := f.symbol, description := f.description }

/-- `Field.from_dict`: `none` models the `ValueError` from an unknown
`field_type` value; the constructor applies `__post_init__`. -/
def Field.from_dict (d : FieldDict) : Option Field :=
  (FieldType.fromValue d.field_type).map
    (fun ft => mkField d.name ft d.unit d.symbol d.description)

theorem Field.from_dict_to_dict (f : Field) (h : f.symbol ≠ "") :
    Field.from_dict f.to_dict = some f := by
  simp only [Field.from_dict, Field.to_dict, FieldType.fromValue_value, Option.map_some]
  simp [mkField, h]

/-! ## FormatDefinition (`src/magnetrun/formats/format_definition.py`)

`self.fields` is an insertion-ordered Python dict keyed by field name;
`self.metadata` an open dict (values modelled as opaque string tokens).
The shared `pint` registry is threaded separately where needed. -/

structure FormatDefinition where
  format_name : String
  fields : List (String × Field)
  metadata : List (String × String)
  deriving DecidableEq, Repr

/-- `FormatDefinition.add_field`: `self.fields[field.name] = field`. -/
def FormatDefinition.add_field (fd : FormatDefinition) (f : Field) : FormatDefinition :=
  { fd with fields := upsert fd.fields f.name f }

/-- `FormatDefinition.get_field`: `self.fields.get(name)`. -/
def FormatDefinition.get_field (fd : FormatDefinition) (n : String) : Option Field :=
  alookup fd.fields n

/-- Well-formedness every `FormatDefinition` built through `add_field`
enjoys: entries are keyed by their field's own name, and keys are distinct
(a Python dict cannot hold duplicate keys). -/
def FormatDefinition.WF (fd : FormatDefinition) : Prop :=
  (∀ p ∈ fd.fields, p.1 = p.2.name) ∧ (fd.fields.map Prod.fst).Nodup

/-- Serialized form of a format definition. -/
structure FormatDict where
  format_name : String
  metadata : List (String × String)
  fields : List FieldDict
  deriving DecidableEq, Repr

/-- `FormatDefinition.to_dict`. -/
def FormatDefinition.to_dict (fd : FormatDefinition) : FormatDict :=
  { format_name := fd.format_name, metadata := fd.metadata,
    fields := fd.fields.map (fun p => p.2.to_dict) }

/-- `FormatDefinition.from_dict`: rebuild each field with `Field.from_dict`
(`none` if any field raises) and insert them in order with `add_field`. -/
def FormatDefinition.from_dict (d : FormatDict) : Option FormatDefinition :=
  (d.fields.mapM Field.from_dict).map
    (fun fs =>
      { format_name := d.format_name,
        fields := fs.foldl (fun acc f => upsert acc f.name f) [],
        metadata := d.metadata })

/-- `merge_format_definitions` (`src/magnetrun/core/fields/utils.py`):
start from `base`'s name, copy base metadata, `add_field` every base field,
then `update` overlay metadata and `add_field` every overlay field. -/
def merge_format_definitions (base overlay : FormatDefinition) : FormatDefinition :=
  let fields1 := base.fields.foldl (fun acc p => upsert acc p.2.name p.2) []
  let metadata2 := overlay.metadata.foldl (fun acc kv => upsert acc kv.1 kv.2) base.metadata
  let fields2 := overlay.fields.foldl (fun acc p => upsert acc p.2.name p.2) fields1
  { format_name := base.format_name, metadata := metadata2, fields := fields2 }

/-! Fold lemmas for dict rebuild and dict update. -/

theorem foldl_upsert_append {β : Type} (l acc : List (String × β))
    (hd : ((acc.map Prod.fst) ++ (l.map Prod.fst)).Nodup) :
    l.foldl (fun a p => upsert a p.1 p.2) acc = acc ++ l := by
  induction l generalizing acc with
  | nil => simp
  | cons p t ih =>
      simp only [List.foldl_cons]
      have hmem : p.1 ∉ acc.map Prod.fst := by
        intro hmem
        exact ((List.nodup_append.mp hd).2.2 hmem) (by simp)
      rw [upsert_of_not_mem _ _ _ hmem]
      have : ((acc ++ [(p.1, p.2)]).map Prod.fst ++ t.map Prod.fst).Nodup := by
        simp only [List.map_append, List.map_cons, List.map_nil] at hd ⊢
        simpa [List.append_assoc] using hd
      rw [ih _ this]
      simp

theorem foldl_upsert_self {β : Type} (l : List (String × β))
    (hd : (l.map Prod.fst).Nodup) :
    l.foldl (fun a p => upsert a p.1 p.2) [] = l := by
  simpa using foldl_upsert_append l [] (by simpa using hd)

theorem alookup_foldl_upsert {β : Type} (l acc : List (String × β)) (k : String)
    (hd : (l.map Prod.fst).Nodup) :
    alookup (l.foldl (fun a p => upsert a p.1 p.2) acc) k =
      (alookup l k).orElse (fun _ => alookup acc k) := by
  induction l generalizing acc with
  | nil => simp [alookup]
  | cons p t ih =>
      simp only [List.map_cons, List.nodup_cons] at hd
      simp only [List.foldl_cons]
      rw [ih _ hd.2]
      by_cases hpk : p.1 = k
      · subst hpk
        have : alookup t p.1 = none := alookup_eq_none_of_not_mem t p.1 hd.1
        simp [alookup, this, alookup_upsert_self]
      · simp [alookup, hpk, alookup_upsert_ne _ _ _ _ (Ne.symm hpk)]

/-- The field-keyed version: folding `add_field` over entries whose keys
equal their field's name. -/
theorem fields_foldl_eq (l : List (String × Field)) (acc : List (String × Field))
    (hk : ∀ p ∈ l, p.1 = p.2.name) :
    l.foldl (fun a p => upsert a p.2.name p.2) acc =
      l.foldl (fun a p => upsert a p.1 p.2) acc := by
  induction l generalizing acc with
  | nil => rfl
  | cons p t ih =>
      simp only [List.foldl_cons]
      rw [hk p (by simp)]
      exact ih _ (fun q hq => hk q (by simp [hq]))

/-! ## Tabular storage (`PandasBasedData`, `src/magnetrun/core/base_data.py`)

A pandas `DataFrame` is modelled by its ordered, possibly duplicated column
labels with their value series plus a fixed row count. `df[key] = vals`
replaces the series of every column labelled `key` (pandas assigns all
duplicate labels) or appends a new column; `df.drop(labels, axis=1)` drops
every column whose label is listed; `df.rename(columns=m)` relabels
simultaneously and silently skips absent names. -/

structure DataFrame where
  nrows : ℕ
  cols : List (String × List ℚ)
  deriving DecidableEq, Repr

/-- `df.columns.tolist()`. -/
def DataFrame.colNames (df : DataFrame) : List String := df.cols.map Prod.fst

/-- `df[key] = vals`. -/
def DataFrame.setCol (df : DataFrame) (key : String) (vals : List ℚ) : DataFrame :=
  if key ∈ df.colNames then
    { df with cols := df.cols.map (fun c => if c.1 = key then (c.1, vals) else c) }
  else
    { df with cols := df.cols ++ [(key, vals)] }

/-- `df[key]` as a series, valid when the label is unique (the first and
only matching column). -/
def DataFrame.getCol (df : DataFrame) (key : String) : List ℚ :=
  (alookup df.cols key).getD []

/-- `df[key]` as pandas resolves it: a single series when exactly one
column bears the label; with duplicate labels pandas returns a
multi-column `DataFrame` instead, modelled as `none` (the single-series
view fails, and assigning such a selection to one column raises). -/
def DataFrame.getSeries? (df : DataFrame) (key : String) : Option (List ℚ) :=
  if df.cols.countP (fun c => c.1 = key) = 1 then alookup df.cols key else none

/-- `df.drop(labels, axis=1)`: drop every column whose label is listed. -/
def DataFrame.dropCols (df : DataFrame) (labels : List String) : DataFrame :=
  { df with cols := df.cols.filter (fun c => c.1 ∉ labels) }

/-- One entry of `df.rename(columns=m)`: map a label through the mapping. -/
def applyRen (m : List (String × String)) (n : String) : String :=
  (alookup m n).getD n

/-- `df.rename(columns=m, inplace=True)`. -/
def DataFrame.renameCols (df : DataFrame) (m : List (String × String)) : DataFrame :=
  { df with cols := df.cols.map (fun c => (applyRen m c.1, c.2)) }

theorem DataFrame.colNames_setCol (df : DataFrame) (key : String) (vals : List ℚ) :
    (df.setCol key vals).colNames =
      if key ∈ df.colNames then df.colNames else df.colNames ++ [key] := by
  simp only [DataFrame.setCol, DataFrame.colNames]
  by_cases h : key ∈ df.cols.map Prod.fst
  · rw [if_pos h, if_pos h, List.map_map]
    have hf : (Prod.fst ∘ fun c : String × List ℚ =>
        if c.1 = key then (c.1, vals) else c) = Prod.fst := by
      funext c
      by_cases hc : c.1 = key <;> simp [Function.comp, hc]
    rw [hf]
  · rw [if_neg h, if_neg h]
    simp

theorem map_fst_filter_not_mem {β : Type} (labels : List String)
    (l : List (String × β)) :
    (l.filter (fun c => c.1 ∉ labels)).map Prod.fst =
      (l.map Prod.fst).filter (fun n => n ∉ labels) := by
  induction l with
  | nil => rfl
  | cons c t ih =>
      by_cases hc : c.1 ∈ labels <;>
        simpa [List.filter_cons, hc] using ih

theorem DataFrame.colNames_dropCols (df : DataFrame) (labels : List String) :
    (df.dropCols labels).colNames = df.colNames.filter (fun n => n ∉ labels) := by
  simpa [DataFrame.dropCols, DataFrame.colNames]
    using map_fst_filter_not_mem labels df.cols

theorem DataFrame.colNames_renameCols (df : DataFrame) (m : List (String × String)) :
    (df.renameCols m).colNames = df.colNames.map (applyRen m) := by
  simp [DataFrame.renameCols, DataFrame.colNames, List.map_map, Function.comp]

/-- Mutable state of a `PandasBasedData` object: the owned `DataFrame` and
the `_keys` list. -/
structure PandasSt where
  df : DataFrame
  keys : List String
  deriving DecidableEq, Repr

/-- Python exception values surfaced to callers. -/
inductive PyErr
  | keyNotFound (msg : String)
  | dataFormat (msg : String)
  | valueError (msg : String)
  deriving DecidableEq, Repr

/-- `BaseData.validate_keys` on a key list against a `keys` snapshot. -/
def validateKeysL (keys requested : List String) : Except PyErr (List String) :=
  let invalid := requested.filter (fun k => k ∉ keys)
  if invalid.isEmpty then .ok requested
  else .error (.keyNotFound ("Keys not found: " ++ String.intercalate ", " invalid))

/-- `PandasBasedData.get_data`: `none` key returns a copy of the whole
frame; otherwise validate then slice. -/
def PandasSt.get_data (st : PandasSt) (key : Option (List String)) :
    Except PyErr DataFrame :=
  match key with
  | none => .ok st.df
  | some ks =>
      match validateKeysL st.keys ks with
      | .error e => .error e
      | .ok sel => .ok { nrows := st.df.nrows,
                         cols := sel.map (fun k => (k, st.df.getCol k)) }

/-- The caller-supplied input of `add_data`: a formula string, a literal
series/array/list, or an unsupported Python object. -/
inductive AddInput
  | formula (s : String)
  | direct (vals : List ℚ)
  | unsupported

/-- The `pandas.eval` oracle: `self.data.eval(expression)` is external
code, modelled as an arbitrary function that may fail. -/
abbrev EvalOracle := DataFrame → String → Except String (List ℚ)

/-- Split a character list at the first `=`, as Python
`formula.split("=", 1)` does; `none` when there is no `=`. -/
def splitAtEq : List Char → Option (List Char × List Char)
  | [] => none
  | c :: t =>
      if c = '=' then some ([], t)
      else (splitAtEq t).map (fun p => (c :: p.1, p.2))

/-- Whitespace as stripped by Python `str.strip()`. -/
def isPySpace (c : Char) : Bool :=
  c = ' ' ∨ c = '\t' ∨ c = '\n' ∨ c = '\r'

/-- Python `s.strip()`: drop leading and trailing whitespace. -/
def pyStrip (s : String) : String :=
  ⟨(((s.toList.dropWhile isPySpace).reverse.dropWhile isPySpace).reverse)⟩

/-- The expression extracted by `_add_formula`: text after the first `=`
(stripped), or the whole formula when it contains no `=`. -/
def splitFormula (formula : String) : String :=
  match splitAtEq formula.toList with
  | some p => pyStrip ⟨p.2⟩
  | none => formula

/-- `PandasBasedData._add_formula`: evaluate the expression; if evaluation
fails fall back to a bare existing-column alias. The fallback assignment
`self.data[key] = self.data[alias]` itself raises when the alias label is
duplicated (pandas then yields a multi-column frame that cannot be
assigned to one column); that exception, like an absent alias, is caught
by the inner `except` and re-raised as a `DataFormatError`. -/
def addFormula (O : EvalOracle) (df : DataFrame) (key formula : String) :
    Except String DataFrame :=
  let expression := splitFormula formula
  match O df expression with
  | .ok vals => .ok (df.setCol key vals)
  | .error e =>
      if pyStrip expression ∈ df.colNames then
        match df.getSeries? (pyStrip expression) with
        | some series => .ok (df.setCol key series)
        | none =>
            .error ("Failed to evaluate formula " ++ formula ++
              ": cannot set a DataFrame with multiple columns to the single column " ++
              key)
      else
        .error ("Failed to evaluate formula " ++ formula ++ ": " ++ e)

/-- `PandasBasedData.add_data`: dispatch on input kind, wrap any raised
error in a `DataFormatError`, and append the key if it is new. The state
component is the object state after the call (unchanged when an exception
escapes, since every raise happens before any mutation). -/
def addData (O : EvalOracle) (st : PandasSt) (key : String) (input : AddInput) :
    PandasSt × Option PyErr :=
  match input with
  | .formula f =>
      match addFormula O st.df key f with
      | .ok df' =>
          ({ df := df', keys := if key ∈ st.keys then st.keys else st.keys ++ [key] },
           none)
      | .error e =>
          (st, some (.dataFormat ("Failed to add data for key " ++ key ++ ": " ++ e)))
  | .direct vals =>
      if vals.length ≠ st.df.nrows then
        (st, some (.dataFormat ("Failed to add data for key " ++ key ++
          ": length does not match DataFrame length")))
      else
        ({ df := st.df.setCol key vals,
           keys := if key ∈ st.keys then st.keys else st.keys ++ [key] }, none)
  | .unsupported =>
      (st, some (.dataFormat ("Failed to add data for key " ++ key ++
        ": unsupported data input type")))

/-- The `BaseData.remove_data` loop: `for key in existing_keys:
self._keys.remove(key)`. `list.remove` erases the first occurrence and
raises `ValueError` when the name is (no longer) present — a request that
repeats a present name therefore aborts mid-loop, leaving `_keys`
partially erased. The returned state is the list at the moment the call
returns or the exception propagates. -/
def removeKeysLoop : List String → List String → List String × Option PyErr
  | keys, [] => (keys, none)
  | keys, k :: t =>
      if k ∈ keys then removeKeysLoop (keys.erase k) t
      else (keys, some (.valueError "list.remove(x): x not in list"))

/-- `PandasBasedData.remove_data`: filter the request to the present
labels, drop them all from the frame (`df.drop` removes every matching
column at once), then run the inherited `BaseData.remove_data` loop on
`_keys`, which can abort with `ValueError`. -/
def removeData (st : PandasSt) (ks : List String) : PandasSt × Option PyErr :=
  let existing := ks.filter (fun k => k ∈ st.keys)
  if existing.isEmpty then (st, none)
  else
    let r := removeKeysLoop st.keys existing
    ({ df := st.df.dropCols existing, keys := r.1 }, r.2)

/-- `PandasBasedData.rename_data`: rename the frame columns, then
`self._keys = self.data.columns.tolist()` (the intermediate
`super().rename_data` update of `_keys` is immediately overwritten). -/
def renameData (st : PandasSt) (m : List (String × String)) : PandasSt :=
  let df' := st.df.renameCols m
  { df := df', keys := df'.colNames }

/-! ## Operation sequences on tabular data -/

/-- One mutating call on a `PandasBasedData` object. -/
inductive Op
  | add (key : String) (input : AddInput)
  | remove (ks : List String)
  | rename (m : List (String × String))

/-- Execute one call; the resulting state is the object state after the
call returns or after its exception propagates. -/
def runOp (O : EvalOracle) (st : PandasSt) : Op → PandasSt
  | .add key input => (addData O st key input).1
  | .remove ks => (removeData st ks).1
  | .rename m => renameData st m

/-- Execute a finite sequence of calls. -/
def runOps (O : EvalOracle) (st : PandasSt) (ops : List Op) : PandasSt :=
  ops.foldl (runOp O) st

/-- Key/storage coherence: `_keys` equals the frame column labels in order
(and, as the inductive strengthening, stays duplicate-free). -/
def Coherent (st : PandasSt) : Prop :=
  st.keys = st.df.colNames ∧ st.keys.Nodup

/-- A rename is safe when the simultaneously renamed column labels remain
pairwise distinct (pandas otherwise produces duplicate labels, which
`remove_data` then drops all at once while `_keys.remove` erases once);
a removal is safe when the request does not repeat a present name (the
`list.remove` loop otherwise aborts mid-way with `ValueError`, after the
frame has already dropped the labels). -/
def opSafe (st : PandasSt) : Op → Prop
  | .rename m => ((st.df.colNames.map (applyRen m)).Nodup)
  | .remove ks => ((ks.filter (fun k => k ∈ st.keys)).Nodup)
  | _ => True

/-- All renames along the run are safe. -/
def safeRun (O : EvalOracle) : PandasSt → List Op → Prop
  | _, [] => True
  | st, op :: ops => opSafe st op ∧ safeRun O (runOp O st op) ops

/-! ## Grouped storage (`TDMSBasedData`, `src/magnetrun/core/base_data.py`) -/

/-- State of a `TDMSBasedData` object: group-name to frame map and the
caller-supplied `_keys` list. -/
structure TdmsSt where
  data : List (String × DataFrame)
  keys : List String
  deriving DecidableEq, Repr

/-- The `group/channel` identifiers actually present in the raw grouped
storage, in group then column order. -/
def tdmsIdentifiers (d : List (String × DataFrame)) : List String :=
  d.flatMap (fun g => g.2.colNames.map (fun c => g.1 ++ "/" ++ c))

/-- `TDMSBasedData.remove_data` is the inherited `BaseData.remove_data`:
it runs the `list.remove` loop on the present names (which can abort with
`ValueError` on a repeated present name) and never touches `self.data`. -/
def tdmsRemoveData (st : TdmsSt) (ks : List String) : TdmsSt × Option PyErr :=
  let r := removeKeysLoop st.keys (ks.filter (fun k => k ∈ st.keys))
  ({ st with keys := r.1 }, r.2)

/-- `TDMSBasedData.rename_data` is the inherited `BaseData.rename_data`: it
rewrites entries of `_keys` in place (sequentially, skipping absent old
names) and never touches `self.data`. -/
def tdmsRenameData (st : TdmsSt) (m : List (String × String)) : TdmsSt :=
  let newKeys := m.foldl
    (fun acc p => if p.1 ∈ acc then acc.set (acc.indexOf p.1) p.2 else acc) st.keys
  { st with keys := newKeys }

/-! Preservation lemmas for the tabular invariant. -/

theorem coherent_addData (O : EvalOracle) (st : PandasSt) (key : String)
    (input : AddInput) (h : Coherent st) : Coherent (addData O st key input).1 := by
  obtain ⟨hk, hn⟩ := h
  have hset : ∀ vals : List ℚ,
      Coherent { df := st.df.setCol key vals,
                 keys := if key ∈ st.keys then st.keys else st.keys ++ [key] } := by
    intro vals
    constructor
    · simp only [DataFrame.colNames_setCol, hk]
    · by_cases hmem : key ∈ st.keys
      · simpa [hmem] using hn
      · simp only [hmem, if_false]
        exact List.Nodup.append hn (List.nodup_singleton key)
          (by simpa using fun hx => hmem hx)
  cases input with
  | formula f =>
      simp only [addData, addFormula]
      cases O st.df (splitFormula f) with
      | ok vals => exact hset vals
      | error e =>
          by_cases halias : pyStrip (splitFormula f) ∈ st.df.colNames
          · cases hser : st.df.getSeries? (pyStrip (splitFormula f)) with
            | some series => simpa [halias, hser] using hset series
            | none => simpa [halias, hser] using ⟨hk, hn⟩
          · simpa [halias] using ⟨hk, hn⟩
  | direct vals =>
      simp only [addData]
      by_cases hlen : vals.length ≠ st.df.nrows
      · simpa [hlen] using ⟨hk, hn⟩
      · simpa [hlen] using hset vals
  | unsupported => exact ⟨hk, hn⟩

theorem foldl_erase_eq_filter (es : List String) :
    ∀ keys : List String, keys.Nodup →
      es.foldl List.erase keys = keys.filter (fun k => k ∉ es) := by
  induction es with
  | nil => intro keys _; simp
  | cons e t ih =>
      intro keys hn
      simp only [List.foldl_cons]
      rw [ih _ (hn.erase e), List.Nodup.erase_eq_filter hn e]
      rw [List.filter_filter]
      apply List.filter_congr
      intro k _
      by_cases h1 : k = e <;> by_cases h2 : k ∈ t <;> simp [h1, h2]

theorem removeKeysLoop_complete (req : List String) :
    ∀ keys : List String, req.Nodup → (∀ k ∈ req, k ∈ keys) →
      removeKeysLoop keys req = (req.foldl List.erase keys, none) := by
  induction req with
  | nil => intro keys _ _; rfl
  | cons k t ih =>
      intro keys hnd hmem
      have hk : k ∈ keys := hmem k (by simp)
      simp only [removeKeysLoop, if_pos hk, List.foldl_cons]
      apply ih _ (List.nodup_cons.mp hnd).2
      intro x hx
      have hxk : x ≠ k := fun heq => (List.nodup_cons.mp hnd).1 (heq ▸ hx)
      exact (List.mem_erase_of_ne hxk).mpr (hmem x (by simp [hx]))

theorem coherent_removeData (st : PandasSt) (ks : List String)
    (h : Coherent st) (hs : (ks.filter (fun k => k ∈ st.keys)).Nodup) :
    Coherent (removeData st ks).1 := by
  obtain ⟨hk, hn⟩ := h
  simp only [removeData]
  by_cases he : (ks.filter (fun k => k ∈ st.keys)).isEmpty
  · rw [if_pos he]
    exact ⟨hk, hn⟩
  · rw [if_neg he]
    rw [removeKeysLoop_complete _ _ hs
      (fun k hmem => by simpa using (List.mem_filter.mp hmem).2)]
    constructor
    · rw [foldl_erase_eq_filter _ _ hn, DataFrame.colNames_dropCols, hk]
    · rw [foldl_erase_eq_filter _ _ hn]
      exact hn.filter _

theorem coherent_renameData (st : PandasSt) (m : List (String × String))
    (hsafe : (st.df.colNames.map (applyRen m)).Nodup) :
    Coherent (renameData st m) := by
  constructor
  · rfl
  · simpa [renameData, DataFrame.colNames_renameCols] using hsafe

theorem coherent_runOp (O : EvalOracle) (st : PandasSt) (op : Op)
    (h : Coherent st) (hs : opSafe st op) : Coherent (runOp O st op) := by
  cases op with
  | add key input => exact coherent_addData O st key input h
  | remove ks => exact coherent_removeData st ks h hs
  | rename m => exact coherent_renameData st m hs

/-! ## ConfigManager and format resolution
(`src/magnetrun/formats/centralized_config.py`,
`src/magnetrun/core/base_data.py`, `src/magnetrun/formats/registry.py`,
`src/magnetrun/core/fields/format_registry.py`) -/

/-- `ConfigManager` state as seen by `load_config`: the in-process cache
keyed by `"type:name"`, and the filesystem as a function from config type
and name to the parsed JSON dict (`none` collapses a missing file and a
malformed file, both of which `load_config` turns into `None` after a
warning). -/
structure ConfigManagerSt where
  cache : List (String × FormatDict)
  disk : String → String → Option FormatDict

/-- `ConfigManager.load_config(config_type, config_name)` with
`use_cache=True`: cache hit short-circuits; a disk hit is cached. -/
def load_config (cm : ConfigManagerSt) (ty name : String) :
    Option FormatDict × ConfigManagerSt :=
  let cacheKey := ty ++ ":" ++ name
  match alookup cm.cache cacheKey with
  | some d => (some d, cm)
  | none =>
      match cm.disk ty name with
      | some d => (some d, { cm with cache := cm.cache ++ [(cacheKey, d)] })
      | none => (none, cm)

/-- `BaseData._load_format_definition`: try the centralized config store
first; on a hit, parse it with `FormatDefinition.from_dict` (a parse
failure is logged and falls through); otherwise fall back to the global
`formats.registry.format_registry` definition table. -/
def base_data_load_format_definition (cm : ConfigManagerSt)
    (regDefs : List (String × FormatDefinition)) (name : String) :
    Option FormatDefinition × ConfigManagerSt :=
  let r := load_config cm "format" name
  match r.1 with
  | some d =>
      match FormatDefinition.from_dict d with
      | some fd => (some fd, r.2)
      | none => (alookup regDefs name, r.2)
  | none => (alookup regDefs name, r.2)

/-- `formats.registry.FormatRegistry._load_format_definitions`: build the
in-memory `_format_definitions` dict from the JSON files found in the
configs directory (glob order); files that fail to parse are skipped with
a warning. `_register_built_in_formats` registers only readers and data
handlers, never definitions. -/
def registry_load_format_definitions (files : List FormatDict) :
    List (String × FormatDefinition) :=
  files.foldl
    (fun acc d =>
      match FormatDefinition.from_dict d with
      | some fd => upsert acc fd.format_name fd
      | none => acc) []

/-- Modelled from the spec: `create_pupitre_format` of
`magnetrun/core/fields/builtin_formats.py`, a module that is absent from
the source tree. The spec says only that built-in defaults for the
`pupitre` format are generated programmatically (no configuration file
involved); the fields it would contain are unspecified, so the model keeps
them abstract as an empty list under the right format name. -/
def create_pupitre_format : FormatDefinition :=
  { format_name := "pupitre", fields := [], metadata := [] }

/-- Modelled from the spec: `create_bprofile_format` of the absent
`builtin_formats.py` module (see `create_pupitre_format`). -/
def create_bprofile_format : FormatDefinition :=
  { format_name := "bprofile", fields := [], metadata := [] }

/-- Modelled from the spec: `create_pigbrother_format` of the absent
`builtin_formats.py` module (see `create_pupitre_format`). -/
def create_pigbrother_format : FormatDefinition :=
  { format_name := "pigbrother", fields := [], metadata := [] }

/-- `core.fields.format_registry.FormatRegistry._load_builtin_formats`
followed by `register_format`: the `formats` dict seeded with the three
programmatic built-ins at construction. -/
def core_fields_registry_formats : List (String × FormatDefinition) :=
  upsert (upsert (upsert [] "pupitre" create_pupitre_format)
    "bprofile" create_bprofile_format) "pigbrother" create_pigbrother_format

/-- `core.fields.format_registry.FormatRegistry.get_format`: a single
in-memory dict lookup. -/
def core_fields_get_format (name : String) : Option FormatDefinition :=
  alookup core_fields_registry_formats name

/-- A `ConfigManager` over an empty cache and a filesystem with zero
configuration files. -/
def emptyConfigManager : ConfigManagerSt :=
  { cache := [], disk := fun _ _ => none }

/-! ## Field validation (`src/magnetrun/core/fields/utils.py`) -/

/-- One entry of the `issues` list of `validate_format_definition`; each
constructor stands for one message format string of the source. -/
inductive VIssue
  | duplicateSymbol (symbol currentField firstField : String)
  | invalidUnit (unit fieldName : String)
  deriving DecidableEq, Repr

/-- One entry of the `warnings` list of `validate_format_definition`. -/
inductive VWarning
  | missingDescriptions (names : List String)
  | dimensionlessUnit (fieldName typeValue : String)
  deriving DecidableEq, Repr

/-- Result dict of `validate_format_definition`. -/
structure VResult where
  valid : Bool
  issues : List VIssue
  warnings : List VWarning
  total_fields : ℕ
  deriving DecidableEq, Repr

/-- The duplicate-symbol scan: walk the fields with the `symbols` dict
(symbol to first field name), emitting an issue whenever a symbol was
already seen. -/
def symbolScan (fields : List (String × Field)) (symbols : List (String × String)) :
    List VIssue :=
  match fields with
  | [] => []
  | (name, f) :: t =>
      match alookup symbols f.symbol with
      | some firstName => .duplicateSymbol f.symbol name firstName :: symbolScan t symbols
      | none => symbolScan t (symbols ++ [(f.symbol, name)])

/-- Field types exempt from the dimensionless-unit warning
(`FieldType.INDEX` via the outer test, `PERCENTAGE` and `TIME` via the
inner list). -/
def dimlessExempt (ft : FieldType) : Prop :=
  ft = .INDEX ∨ ft = .PERCENTAGE ∨ ft = .TIME

instance (ft : FieldType) : Decidable (dimlessExempt ft) := by
  unfold dimlessExempt; infer_instance

/-- The unit-check loop of `validate_format_definition`, issue side: for
each field, `get_unit_object` never raises (falling back to dimensionless
on a parse failure), but accessing `.dimensionality` on its result can —
`parse_expression` returns a plain number for a unit string like `"2"` —
and the `except` branch then appends an invalid-unit issue. -/
def unitIssues (fd : FormatDefinition) (u : UnitRegistry) : List VIssue :=
  fd.fields.filterMap (fun p =>
    match u.dimensionality (p.2.get_unit_object u) with
    | .error _ => some (.invalidUnit p.2.unit p.1)
    | .ok _ => none)

/-- The unit-check loop of `validate_format_definition`, warning side: a
field whose unit object's dimensionality reads `dimensionless` gets a
warning, unless its type is `INDEX`, `PERCENTAGE` or `TIME`. -/
def unitWarnings (fd : FormatDefinition) (u : UnitRegistry) : List VWarning :=
  fd.fields.filterMap (fun p =>
    match u.dimensionality (p.2.get_unit_object u) with
    | .error _ => none
    | .ok dim =>
        if dim = "dimensionless" ∧ ¬ dimlessExempt p.2.field_type then
          some (.dimensionlessUnit p.1 p.2.field_type.value)
        else none)

/-- `validate_format_definition`: duplicate-symbol issues, a single
aggregated missing-description warning, then the unit-check loop which
appends, per field, either an invalid-unit issue (when the dimensionality
access raises) or possibly a dimensionless-unit warning. The source's
single loop feeds the two separate lists, modelled as the two order-
preserving `filterMap`s above. -/
def validate_format_definition (fd : FormatDefinition) (u : UnitRegistry) : VResult :=
  let issues := symbolScan fd.fields [] ++ unitIssues fd u
  let missing := (fd.fields.filter (fun p => p.2.description = "")).map Prod.fst
  let missingWarnings : List VWarning :=
    if missing.isEmpty then [] else [.missingDescriptions missing]
  { valid := issues.isEmpty,
    issues := issues,
    warnings := missingWarnings ++ unitWarnings fd u,
    total_fields := fd.fields.length }

/-! ## Validation/coverage engine (`src/magnetrun/core/magnet_data.py`) -/

/-- One raw cell of a data column: missing (`NaN` dropped by `dropna`),
numeric, a scalar that `pd.to_numeric(..., errors="coerce")` coerces to
`NaN`, or a non-scalar value (e.g. a list) on which `to_numeric` raises a
`TypeError` even with `errors="coerce"`. -/
inductive Cell
  | null
  | num (q : ℚ)
  | bad
  | nonScalar
  deriving DecidableEq, Repr

/-- `c` survives `dropna`. -/
def Cell.notNull : Cell → Bool
  | .null => false
  | _ => true

/-- `pd.to_numeric(..., errors="coerce")` marks the cell invalid. -/
def Cell.isBad : Cell → Bool
  | .bad => true
  | _ => false

/-- `pd.to_numeric` raises on this cell instead of coercing. -/
def Cell.isNonScalar : Cell → Bool
  | .nonScalar => true
  | _ => false

/-- The environment `validate_field_data` reads: the bound format
definition's `get_field`, and `self.get_data([key])[key]` which may raise
(modelled as `Except`). -/
structure ValidationEnv where
  getField : String → Option Field
  fetch : String → Except String (List Cell)

/-- Per-key status produced by `MagnetData.validate_field_data`. -/
inductive VStatus
  | valid
  | mostly_valid
  | invalid
  | error
  | no_field_definition
  deriving DecidableEq, Repr

/-- `MagnetData.validate_field_data`, reduced to the status it reports:
unbound key; fetch failure (the outer `except` around the body); for a
non-`INDEX` field, the inner `try` around `pd.to_numeric`: when some
non-null value is non-scalar, `to_numeric` raises, the inner `except`
appends a `validation_error` issue and leaves `invalid_values` at `0` and
`valid_values` at the non-null count — so the status test (`invalid == 0`
but issues nonempty, then `0 < valid`) yields `mostly_valid` whenever any
non-null value exists and `invalid` otherwise; when `to_numeric`
succeeds, count the values coerced to `NaN` and classify. -/
def validate_field_data (env : ValidationEnv) (key : String) : VStatus :=
  match env.getField key with
  | none => .no_field_definition
  | some f =>
      match env.fetch key with
      | .error _ => .error
      | .ok cells =>
          let values := cells.filter Cell.notNull
          if f.field_type ≠ .INDEX then
            if values.any Cell.isNonScalar then
              (if 0 < values.length then .mostly_valid else .invalid)
            else
              let invalid := values.countP (fun c => Cell.isBad c)
              let valid := values.length - invalid
              if invalid = 0 then .valid
              else if invalid < valid then .mostly_valid
              else .invalid
          else .valid

/-- The aggregate block of `MagnetData.get_field_validation_summary`. -/
structure ValidationSummary where
  total_fields : ℕ
  valid_fields : ℕ
  mostly_valid_fields : ℕ
  invalid_fields : ℕ
  undefined_fields : ℕ
  coverage_percent : ℚ
  quality_percent : ℚ
  deriving DecidableEq, Repr

/-- `MagnetData.get_field_validation_summary`: build the per-key results
dict (`validation_results[key] = ...` for each key, a dict, so duplicate
keys collapse), count statuses (`invalid_fields` counts both `invalid` and
`error`), and compute the two percentages. -/
def get_field_validation_summary (env : ValidationEnv) (keys : List String) :
    ValidationSummary :=
  let results := keys.foldl (fun acc k => upsert acc k (validate_field_data env k)) []
  let total := results.length
  let valid := results.countP (fun r => r.2 = .valid)
  let mostly := results.countP (fun r => r.2 = .mostly_valid)
  let invalid := results.countP (fun r => r.2 = .invalid ∨ r.2 = .error)
  let undefined := results.countP (fun r => r.2 = .no_field_definition)
  { total_fields := total,
    valid_fields := valid,
    mostly_valid_fields := mostly,
    invalid_fields := invalid,
    undefined_fields := undefined,
    coverage_percent :=
      if 0 < total then ((total : ℚ) - (undefined : ℚ)) / (total : ℚ) * 100 else 0,
    quality_percent :=
      if 0 < total then ((valid : ℚ) + (mostly : ℚ)) / (total : ℚ) * 100 else 0 }

/-! ## Aliasing model for the `keys` property (`BaseData.keys`)

Python lists are heap references; `return self._keys.copy()` allocates a
fresh list. The heap is a list of cells addressed by index; mutating the
returned list is writing to its cell. -/

/-- Read a heap cell (a Python list object). -/
def readCell (h : List (List String)) (a : ℕ) : List String :=
  (h[a]?).getD []

/-- Overwrite a heap cell (any in-place mutation of that list). -/
def writeCell (h : List (List String)) (a : ℕ) (v : List String) :
    List (List String) :=
  h.set a v

/-- A `BaseData` object as the heap sees it: the address of `self._keys`. -/
structure PyBaseDataRef where
  keysAddr : ℕ

/-- The `keys` property: allocate a fresh cell holding
`self._keys.copy()` and return its address. -/
def keys_property (h : List (List String)) (obj : PyBaseDataRef) :
    List (List String) × ℕ :=
  (h ++ [readCell h obj.keysAddr], h.length)

/-! ## Theorems for the claims -/

/-- C2: for every field, numeric value and target-unit string,
`Field.convert_value` either returns the value re-expressed in the target
unit (the successful parse-and-convert result) or returns the original
value unchanged; in particular an unparsable target unit returns the
original value, and `convert_values` applies the same elementwise. It
never raises: the function is total by construction, every failing `pint`
call being handled. -/
theorem C2_conversion_identity_on_failure :
    (∀ (f : Field) (v : ℚ) (t : String) (u : UnitRegistry),
      (∃ tu m, u.parse t = .ok tu ∧ u.qto v (f.get_unit_object u) tu = .ok m ∧
        f.convert_value v t u = m) ∨ f.convert_value v t u = v)
    ∧ (∀ (f : Field) (v : ℚ) (t : String) (u : UnitRegistry) (e : String),
        u.parse t = .error e → f.convert_value v t u = v)
    ∧ (∀ (f : Field) (vs : List ℚ) (t : String) (u : UnitRegistry),
        f.convert_values vs t u = vs.map (fun x => f.convert_value x t u)) := by
  refine ⟨?_, ?_, ?_⟩
  · intro f v t u
    cases hp : u.parse t with
    | error e => right; simp [Field.convert_value, hp]
    | ok tu =>
        cases hq : u.qto v (f.get_unit_object u) tu with
        | error e => right; simp [Field.convert_value, hp, hq]
        | ok m =>
            left
            exact ⟨tu, m, rfl, hq, by simp [Field.convert_value, hp, hq]⟩
  · intro f v t u e hp
    simp [Field.convert_value, hp]
  · intro f vs t u
    rfl

/-- A concrete unit registry: `tesla` parses, everything else fails,
conversion succeeds only tesla-to-tesla. -/
def uregEx : UnitRegistry :=
  { parse := fun s => if s = "tesla" then .ok "T" else .error "undefined unit",
    dimensionless := "dimensionless",
    qto := fun v s t => if s = "T" ∧ t = "T" then .ok v else .error "incompatible",
    dimensionality := fun o =>
      if o = "T" then .ok "[magnetic_flux_density]" else .ok "dimensionless" }

/-- A concrete magnetic-field field in tesla. -/
def fieldEx : Field := mkField "Field" .MAGNETIC_FIELD "tesla" "B" "magnetic field"

theorem C2_conversion_identity_on_failure_witness :
    uregEx.parse "bogus" = .error "undefined unit" ∧
      fieldEx.convert_value 5 "bogus" uregEx = 5 :=
  ⟨rfl, C2_conversion_identity_on_failure.2.1 fieldEx 5 "bogus" uregEx "undefined unit" rfl⟩

/-- C3: `merge_format_definitions base overlay` looks fields up
overlay-first (overlay wins on name collision, base fills the rest) and
shallow-merges the metadata dicts the same way; it is a total function, so
no error is raised on collision. Hypotheses: both definitions are
well-formed dicts (entries keyed by their field's name, no duplicate
keys), as every definition built through `add_field`/`from_dict` is, and
the overlay metadata keys are distinct (a Python dict). -/
theorem C3_merge_precedence :
    ∀ (base overlay : FormatDefinition) (n k : String),
      base.WF → overlay.WF → (overlay.metadata.map Prod.fst).Nodup →
      ((∀ f, overlay.get_field n = some f →
          (merge_format_definitions base overlay).get_field n = some f)
       ∧ (overlay.get_field n = none →
          (merge_format_definitions base overlay).get_field n = base.get_field n)
       ∧ (∀ v, alookup overlay.metadata k = some v →
          alookup (merge_format_definitions base overlay).metadata k = some v)
       ∧ (alookup overlay.metadata k = none →
          alookup (merge_format_definitions base overlay).metadata k =
            alookup base.metadata k)) := by
  intro base overlay n k hb ho hom
  have hfields : ∀ x, alookup (merge_format_definitions base overlay).fields x =
      (alookup overlay.fields x).orElse (fun _ => alookup base.fields x) := by
    intro x
    show alookup (overlay.fields.foldl (fun acc p => upsert acc p.2.name p.2)
      (base.fields.foldl (fun acc p => upsert acc p.2.name p.2) [])) x = _
    rw [fields_foldl_eq _ _ hb.1, foldl_upsert_self _ hb.2,
      fields_foldl_eq _ _ ho.1, alookup_foldl_upsert _ _ _ ho.2]
  have hmeta : ∀ x, alookup (merge_format_definitions base overlay).metadata x =
      (alookup overlay.metadata x).orElse (fun _ => alookup base.metadata x) := by
    intro x
    show alookup (overlay.metadata.foldl (fun acc kv => upsert acc kv.1 kv.2)
      base.metadata) x = _
    rw [alookup_foldl_upsert _ _ _ hom]
  refine ⟨?_, ?_, ?_, ?_⟩
  · intro f hf
    simp only [FormatDefinition.get_field] at hf ⊢
    rw [hfields n, hf]
    rfl
  · intro hf
    simp only [FormatDefinition.get_field] at hf ⊢
    rw [hfields n, hf]
    rfl
  · intro v hv
    rw [hmeta k, hv]
    rfl
  · intro hv
    rw [hmeta k, hv]
    rfl

/-- A concrete base definition. -/
def fdBase : FormatDefinition :=
  { format_name := "demo",
    fields := [("Field", mkField "Field" .MAGNETIC_FIELD "tesla" "B" "field"),
               ("Current", mkField "Current" .CURRENT "ampere" "I" "current")],
    metadata := [("a", "1"), ("b", "2")] }

/-- A concrete overlay redefining `Field` and metadata key `b`. -/
def fdOverlay : FormatDefinition :=
  { format_name := "demo2",
    fields := [("Field", mkField "Field" .MAGNETIC_FIELD "tesla" "Φ" "flux")],
    metadata := [("b", "9"), ("c", "3")] }

theorem C3_merge_precedence_witness :
    (merge_format_definitions fdBase fdOverlay).get_field "Field" =
        some (mkField "Field" .MAGNETIC_FIELD "tesla" "Φ" "flux") ∧
      (merge_format_definitions fdBase fdOverlay).get_field "Current" =
        some (mkField "Current" .CURRENT "ampere" "I" "current") ∧
      alookup (merge_format_definitions fdBase fdOverlay).metadata "b" = some "9" ∧
      alookup (merge_format_definitions fdBase fdOverlay).metadata "a" = some "1" := by
  have h1 := C3_merge_precedence fdBase fdOverlay "Field" "b"
    (by constructor <;> decide) (by constructor <;> decide) (by decide)
  have h2 := C3_merge_precedence fdBase fdOverlay "Current" "a"
    (by constructor <;> decide) (by constructor <;> decide) (by decide)
  refine ⟨h1.1 _ (by decide), ?_, h1.2.2.1 "9" (by decide), ?_⟩
  · rw [h2.2.1 (by decide)]
    decide
  · rw [h2.2.2.2 (by decide)]
    decide

theorem mapM_from_dict_to_dict (l : List (String × Field))
    (hs : ∀ p ∈ l, p.2.symbol ≠ "") :
    (l.map (fun p => p.2.to_dict)).mapM Field.from_dict = some (l.map Prod.snd) := by
  induction l with
  | nil => rfl
  | cons p t ih =>
      simp only [List.map_cons, List.mapM_cons,
        Field.from_dict_to_dict p.2 (hs p (by simp)),
        ih (fun q hq => hs q (by simp [hq]))]
      rfl

/-- C4: serializing a well-formed `FormatDefinition` and parsing it back
reconstructs it exactly: same format name, same metadata, and the same
fields in the same order with name, type, unit, symbol and description
preserved. The symbol-nonempty hypothesis is the `__post_init__`
invariant: every constructed `Field` carries a nonempty symbol (the
type-derived default is never empty). -/
theorem C4_to_dict_from_dict_roundtrip :
    ∀ fd : FormatDefinition, fd.WF → (∀ p ∈ fd.fields, p.2.symbol ≠ "") →
      FormatDefinition.from_dict fd.to_dict = some fd := by
  intro fd hwf hs
  simp only [FormatDefinition.from_dict, FormatDefinition.to_dict,
    mapM_from_dict_to_dict fd.fields hs, Option.map_some']
  congr 1
  have : (fd.fields.map Prod.snd).foldl (fun acc f => upsert acc f.name f) [] =
      fd.fields.foldl (fun acc p => upsert acc p.2.name p.2) [] := by
    rw [List.foldl_map]
  rw [this, fields_foldl_eq _ _ hwf.1, foldl_upsert_self _ hwf.2]

theorem C4_to_dict_from_dict_roundtrip_witness :
    FormatDefinition.from_dict fdBase.to_dict = some fdBase :=
  C4_to_dict_from_dict_roundtrip fdBase (by constructor <;> decide) (by decide)

theorem alookup_append {β : Type} (l1 l2 : List (String × β)) (k : String) :
    alookup (l1 ++ l2) k = (alookup l1 k).orElse (fun _ => alookup l2 k) := by
  induction l1 with
  | nil => simp [alookup]
  | cons p t ih =>
      by_cases hp : p.1 = k <;> simp [alookup, hp, ih]

theorem symbolScan_only_duplicates :
    ∀ (fields : List (String × Field)) (symbols : List (String × String)),
      ∀ i ∈ symbolScan fields symbols, ∃ s a b, i = .duplicateSymbol s a b := by
  intro fields
  induction fields with
  | nil => intro symbols i h; simp [symbolScan] at h
  | cons p t ih =>
      intro symbols i h
      obtain ⟨name, f⟩ := p
      cases halook : alookup symbols f.symbol with
      | some firstName =>
          simp only [symbolScan, halook] at h
          rcases List.mem_cons.mp h with rfl | h
          · exact ⟨f.symbol, name, firstName, rfl⟩
          · exact ih _ i h
      | none =>
          simp only [symbolScan, halook] at h
          exact ih _ i h

theorem symbolScan_eq_nil_iff :
    ∀ (fields : List (String × Field)) (symbols : List (String × String)),
      symbolScan fields symbols = [] ↔
        ((fields.map (fun p => p.2.symbol)).Nodup ∧
          ∀ s ∈ fields.map (fun p => p.2.symbol), alookup symbols s = none) := by
  intro fields
  induction fields with
  | nil => intro symbols; simp [symbolScan]
  | cons p t ih =>
      intro symbols
      obtain ⟨name, f⟩ := p
      cases halook : alookup symbols f.symbol with
      | some firstName =>
          simp only [symbolScan, halook]
          constructor
          · intro h; cases h
          · rintro ⟨-, hall⟩
            have := hall f.symbol (by simp)
            rw [halook] at this
            cases this
      | none =>
          simp only [symbolScan, halook]
          rw [ih]
          constructor
          · rintro ⟨hnd, hall⟩
            have h1 : ∀ s ∈ t.map (fun p => p.2.symbol),
                alookup symbols s = none ∧ f.symbol ≠ s := by
              intro s hs
              have hs' := hall s hs
              rw [alookup_append] at hs'
              cases hsym : alookup symbols s with
              | some v => rw [hsym] at hs'; cases hs'
              | none =>
                  rw [hsym] at hs'
                  refine ⟨rfl, fun heq => ?_⟩
                  simp [alookup, heq] at hs'
            refine ⟨List.nodup_cons.mpr ⟨fun hmem => (h1 _ hmem).2 rfl, hnd⟩, ?_⟩
            intro s hs
            rcases List.mem_cons.mp hs with rfl | hs
            · exact halook
            · exact (h1 s hs).1
          · rintro ⟨hnd, hall⟩
            obtain ⟨hf, hnd'⟩ := List.nodup_cons.mp hnd
            refine ⟨hnd', ?_⟩
            intro s hs
            rw [alookup_append, hall s (by simp [hs])]
            have hne : ¬ f.symbol = s := by
              intro heq
              rw [← heq] at hs
              exact hf hs
            simp [alookup, hne]

/-- C8 (amended): in `validate_format_definition`, every issue is either
a duplicate-symbol issue (one per display symbol already used by an
earlier field) or an invalid-unit issue for a field whose unit object has
no readable dimensionality (reachable because `parse_expression` returns
a plain number for a numeric unit string, whose `.dimensionality` access
raises); `valid` is true exactly when `issues` is empty, i.e. exactly
when all display symbols are pairwise distinct and every field's
dimensionality access succeeds. A truly unparsable unit string never
produces an issue — `get_unit_object` falls back to dimensionless — and
surfaces, like any dimensionless unit on a field whose type implies a
dimensioned quantity, as a dimensionless-unit warning; the warnings also
contain a single aggregated entry listing the fields missing a
description, present exactly when some field has none. -/
theorem C8_validate_format_definition_amended :
    ∀ (fd : FormatDefinition) (u : UnitRegistry),
      ((validate_format_definition fd u).valid = true ↔
        (validate_format_definition fd u).issues = [])
      ∧ (∀ i ∈ (validate_format_definition fd u).issues,
          (∃ s a b, i = .duplicateSymbol s a b) ∨ (∃ un n, i = .invalidUnit un n))
      ∧ ((validate_format_definition fd u).issues = [] ↔
          ((fd.fields.map (fun p => p.2.symbol)).Nodup ∧
            ∀ p ∈ fd.fields, ∃ d,
              u.dimensionality (p.2.get_unit_object u) = .ok d))
      ∧ ((∃ ns, VWarning.missingDescriptions ns ∈
            (validate_format_definition fd u).warnings) ↔
          ∃ p ∈ fd.fields, p.2.description = "")
      ∧ ((fd.fields.map Prod.fst).Nodup → ∀ p ∈ fd.fields,
          (VWarning.dimensionlessUnit p.1 p.2.field_type.value ∈
              (validate_format_definition fd u).warnings ↔
            (u.dimensionality (p.2.get_unit_object u) = .ok "dimensionless" ∧
              ¬ dimlessExempt p.2.field_type)))
      ∧ ((fd.fields.map Prod.fst).Nodup → ∀ p ∈ fd.fields,
          (VIssue.invalidUnit p.2.unit p.1 ∈
              (validate_format_definition fd u).issues ↔
            ∃ e, u.dimensionality (p.2.get_unit_object u) = .error e)) := by
  intro fd u
  have hissues : (validate_format_definition fd u).issues =
      symbolScan fd.fields [] ++ unitIssues fd u := rfl
  have hwarn : (validate_format_definition fd u).warnings =
      (if ((fd.fields.filter (fun p => p.2.description = "")).map Prod.fst).isEmpty
        then ([] : List VWarning)
        else [.missingDescriptions
          ((fd.fields.filter (fun p => p.2.description = "")).map Prod.fst)]) ++
      unitWarnings fd u := rfl
  refine ⟨?_, ?_, ?_, ?_, ?_, ?_⟩
  · simp [validate_format_definition, List.isEmpty_iff]
  · intro i h
    rw [hissues] at h
    rcases List.mem_append.mp h with h | h
    · exact Or.inl (symbolScan_only_duplicates fd.fields [] i h)
    · rcases List.mem_filterMap.mp h with ⟨p, -, hp⟩
      cases hdim : u.dimensionality (p.2.get_unit_object u) with
      | error e =>
          rw [hdim] at hp
          dsimp only at hp
          exact Or.inr ⟨p.2.unit, p.1, (Option.some.inj hp).symm⟩
      | ok d =>
          rw [hdim] at hp
          dsimp only at hp
          cases hp
  · rw [hissues, List.append_eq_nil]
    rw [symbolScan_eq_nil_iff]
    constructor
    · rintro ⟨⟨hnd, -⟩, hunit⟩
      refine ⟨hnd, ?_⟩
      intro p hp
      cases hdim : u.dimensionality (p.2.get_unit_object u) with
      | ok d => exact ⟨d, rfl⟩
      | error e =>
          exfalso
          have hmem : VIssue.invalidUnit p.2.unit p.1 ∈ unitIssues fd u :=
            List.mem_filterMap.mpr ⟨p, hp, by unfold unitIssues at *; rw [hdim]⟩
          rw [hunit] at hmem
          cases hmem
    · rintro ⟨hnd, hok⟩
      refine ⟨⟨hnd, fun s _ => rfl⟩, ?_⟩
      unfold unitIssues
      rw [List.filterMap_eq_nil_iff]
      intro p hp
      obtain ⟨d, hd⟩ := hok p hp
      rw [hd]
  · rw [hwarn]
    constructor
    · rintro ⟨ns, hns⟩
      rcases List.mem_append.mp hns with hns | hns
      · by_cases hm : ((fd.fields.filter
            (fun p => p.2.description = "")).map Prod.fst).isEmpty
        · rw [if_pos hm] at hns
          cases hns
        · rw [List.isEmpty_iff, List.map_eq_nil_iff, List.filter_eq_nil_iff] at hm
          push_neg at hm
          obtain ⟨p, hp, hd⟩ := hm
          exact ⟨p, hp, by simpa using hd⟩
      · rcases List.mem_filterMap.mp hns with ⟨p, -, hp⟩
        cases hdim : u.dimensionality (p.2.get_unit_object u) with
        | error e =>
            rw [hdim] at hp
            dsimp only at hp
            cases hp
        | ok d =>
            rw [hdim] at hp
            dsimp only at hp
            by_cases hc : d = "dimensionless" ∧ ¬ dimlessExempt p.2.field_type
            · rw [if_pos hc] at hp
              cases hp
            · rw [if_neg hc] at hp
              cases hp
    · rintro ⟨p, hp, hd⟩
      refine ⟨(fd.fields.filter (fun q => q.2.description = "")).map Prod.fst, ?_⟩
      apply List.mem_append.mpr
      left
      have hne : ¬ ((fd.fields.filter
          (fun q => q.2.description = "")).map Prod.fst).isEmpty := by
        rw [List.isEmpty_iff, List.map_eq_nil_iff, List.filter_eq_nil_iff]
        push_neg
        exact ⟨p, hp, by simpa using hd⟩
      rw [if_neg hne]
      simp
  · intro hnd p hp
    rw [hwarn]
    constructor
    · intro hmem
      rcases List.mem_append.mp hmem with hmem | hmem
      · by_cases hm : ((fd.fields.filter
            (fun q => q.2.description = "")).map Prod.fst).isEmpty
        · rw [if_pos hm] at hmem
          cases hmem
        · rw [if_neg hm] at hmem
          rcases List.mem_singleton.mp hmem with h
          cases h
      · rcases List.mem_filterMap.mp hmem with ⟨q, hq, hqe⟩
        cases hdim : u.dimensionality (q.2.get_unit_object u) with
        | error e =>
            rw [hdim] at hqe
            dsimp only at hqe
            cases hqe
        | ok d =>
            rw [hdim] at hqe
            dsimp only at hqe
            by_cases hc : d = "dimensionless" ∧ ¬ dimlessExempt q.2.field_type
            · rw [if_pos hc] at hqe
              have hq1 : q.1 = p.1 := by
                injection (Option.some.inj hqe) with h1 h2
              have hqp : q = p := List.inj_on_of_nodup_map hnd hq hp hq1
              rw [← hqp]
              rw [hc.1] at hdim
              exact ⟨hdim, hc.2⟩
            · rw [if_neg hc] at hqe
              cases hqe
    · intro hc
      apply List.mem_append.mpr
      right
      refine List.mem_filterMap.mpr ⟨p, hp, ?_⟩
      rw [hc.1]
      dsimp only
      rw [if_pos ⟨rfl, hc.2⟩]
  · intro hnd p hp
    rw [hissues]
    constructor
    · intro hmem
      rcases List.mem_append.mp hmem with hmem | hmem
      · rcases symbolScan_only_duplicates fd.fields [] _ hmem with ⟨s, a, b, hsab⟩
        cases hsab
      · rcases List.mem_filterMap.mp hmem with ⟨q, hq, hqe⟩
        cases hdim : u.dimensionality (q.2.get_unit_object u) with
        | error e =>
            rw [hdim] at hqe
            dsimp only at hqe
            have hq1 : q.1 = p.1 := by
              injection (Option.some.inj hqe) with h1 h2
            have hqp : q = p := List.inj_on_of_nodup_map hnd hq hp hq1
            rw [← hqp]
            exact ⟨e, hdim⟩
        | ok d =>
            rw [hdim] at hqe
            dsimp only at hqe
            cases hqe
    · rintro ⟨e, he⟩
      apply List.mem_append.mpr
      right
      refine List.mem_filterMap.mpr ⟨p, hp, ?_⟩
      rw [he]

/-- A definition with a single field whose unit string is unparsable. -/
def fdBad : FormatDefinition :=
  { format_name := "bad",
    fields := [("f", mkField "f" .MAGNETIC_FIELD "blah" "B" "a field")],
    metadata := [] }

/-- C8 counterexample: the unit `blah` is unparsable under `uregEx`, yet
`validate_format_definition` reports no issue at all and declares the
definition valid — refuting the claim that the issues list contains an
entry for each field whose unit string is unparsable. -/
theorem C8_counterexample_unparsable_unit_no_issue :
    uregEx.parse "blah" = .error "undefined unit" ∧
      (validate_format_definition fdBad uregEx).issues = [] ∧
      (validate_format_definition fdBad uregEx).valid = true := by
  refine ⟨rfl, ?_, ?_⟩ <;> decide

/-- A registry under which the unit string `2` parses to a plain number
whose dimensionality access raises (pint behavior on numeric units). -/
def uregNum : UnitRegistry :=
  { parse := fun s => if s = "2" then .ok "2" else .error "undefined unit",
    dimensionless := "dimensionless",
    qto := fun _ _ _ => .error "incompatible",
    dimensionality := fun o =>
      if o = "2" then .error "AttributeError: no dimensionality"
      else .ok "dimensionless" }

/-- A definition with a single field whose unit string is the numeral 2. -/
def fdNum : FormatDefinition :=
  { format_name := "num",
    fields := [("n", mkField "n" .CURRENT "2" "I" "numeric unit")],
    metadata := [] }

theorem C8_validate_format_definition_amended_witness :
    (validate_format_definition fdBase uregEx).issues = [] ∧
      VWarning.dimensionlessUnit "Current" "current" ∈
        (validate_format_definition fdBase uregEx).warnings ∧
      VIssue.invalidUnit "2" "n" ∈ (validate_format_definition fdNum uregNum).issues := by
  have h := C8_validate_format_definition_amended fdBase uregEx
  have hn := C8_validate_format_definition_amended fdNum uregNum
  refine ⟨h.2.2.1.mpr ⟨by decide, ?_⟩, ?_, ?_⟩
  · intro p hp
    have hp2 : p = ("Field", mkField "Field" .MAGNETIC_FIELD "tesla" "B" "field") ∨
        p = ("Current", mkField "Current" .CURRENT "ampere" "I" "current") := by
      simpa [fdBase] using hp
    rcases hp2 with rfl | rfl
    · exact ⟨"[magnetic_flux_density]", rfl⟩
    · exact ⟨"dimensionless", rfl⟩
  · have h5 := h.2.2.2.2.1 (by decide)
      ("Current", mkField "Current" .CURRENT "ampere" "I" "current") (by decide)
    exact h5.mpr ⟨rfl, by decide⟩
  · have h6 := hn.2.2.2.2.2 (by decide)
      ("n", mkField "n" .CURRENT "2" "I" "numeric unit") (by decide)
    exact h6.mpr ⟨"AttributeError: no dimensionality", rfl⟩


/-- C1 (amended): on tabular (`PandasBasedData`) instances, any finite
sequence of `add_data`/`remove_data`/`rename_data` calls preserves
key/storage coherence (`_keys` equals the frame's column labels, in
order, and stays duplicate-free) provided each rename keeps the column
labels pairwise distinct and no remove request repeats a present name
(the `list.remove` loop otherwise aborts with `ValueError` after the
frame already dropped the labels); on grouped (`TDMSBasedData`)
instances, `remove_data` and `rename_data` are the inherited base
implementations, which mutate only the `_keys` list and leave the group
storage untouched. -/
theorem C1_key_storage_coherence_amended :
    (∀ (O : EvalOracle) (st : PandasSt) (ops : List Op),
      Coherent st → safeRun O st ops → Coherent (runOps O st ops))
    ∧ (∀ (st : TdmsSt) (ks : List String), (tdmsRemoveData st ks).1.data = st.data)
    ∧ (∀ (st : TdmsSt) (m : List (String × String)),
        (tdmsRenameData st m).data = st.data) := by
  refine ⟨?_, fun st ks => rfl, fun st m => rfl⟩
  intro O st ops
  induction ops generalizing st with
  | nil => intro h _; exact h
  | cons op t ih =>
      intro h hs
      simp only [runOps, List.foldl_cons]
      exact ih _ (coherent_runOp O st op h hs.1) hs.2

/-- A grouped instance holding one group `G` with one channel `c`, with a
coherent initial `_keys` list. -/
def tdmsEx : TdmsSt :=
  { data := [("G", { nrows := 1, cols := [("c", [0])] })], keys := ["G/c"] }

/-- A tabular instance with two columns and coherent keys. -/
def pandasEx : PandasSt :=
  { df := { nrows := 1, cols := [("a", [1]), ("b", [2])] }, keys := ["a", "b"] }

/-- An eval oracle on which every expression evaluation fails. -/
def oracleFail : EvalOracle := fun _ _ => .error "eval failed"

/-- C1 counterexample: the claimed invariant fails on the code, three
ways. Grouped: starting coherent, one `remove_data` call leaves the
channel in raw storage but erases it from `keys`. Tabular, via rename:
renaming `a` to the existing name `b` (coherently mirrored into `keys`)
followed by `remove_data(["b"])` drops both duplicate columns from the
frame but erases only one `keys` entry, leaving `keys = ["b"]` over an
empty frame. Tabular, no rename involved: `remove_data(["b","b","a"])`
on coherent keys `["a","b"]` drops both labels from the frame, then the
`_keys` loop aborts with `ValueError` on the repeated `b`, leaving
`keys = ["a"]` over an empty frame. -/
theorem C1_counterexample_keys_storage_diverge :
    (tdmsEx.keys = tdmsIdentifiers tdmsEx.data
      ∧ (tdmsRemoveData tdmsEx ["G/c"]).1.keys ≠
          tdmsIdentifiers (tdmsRemoveData tdmsEx ["G/c"]).1.data)
    ∧ (pandasEx.keys = pandasEx.df.colNames
      ∧ (runOps oracleFail pandasEx [.rename [("a", "b")], .remove ["b"]]).keys ≠
          (runOps oracleFail pandasEx [.rename [("a", "b")], .remove ["b"]]).df.colNames)
    ∧ ((removeData pandasEx ["b", "b", "a"]).1.keys ≠
          (removeData pandasEx ["b", "b", "a"]).1.df.colNames
      ∧ (removeData pandasEx ["b", "b", "a"]).2 =
          some (.valueError "list.remove(x): x not in list")) := by
  refine ⟨⟨?_, ?_⟩, ⟨?_, ?_⟩, ⟨?_, ?_⟩⟩ <;> decide

theorem C1_key_storage_coherence_amended_witness :
    Coherent (runOps oracleFail pandasEx
      [.add "c" (.direct [3]), .remove ["a"], .rename [("b", "bb")]]) := by
  refine C1_key_storage_coherence_amended.1 oracleFail pandasEx _
    ⟨by decide, by decide⟩ ?_
  refine ⟨trivial, ?_, ?_, trivial⟩
  · show ((["a"].filter (fun k => k ∈ (runOp oracleFail pandasEx
        (Op.add "c" (AddInput.direct [3]))).keys)).Nodup)
    decide
  · show ((runOp oracleFail (runOp oracleFail pandasEx (Op.add "c" (AddInput.direct [3])))
        (Op.remove ["a"])).df.colNames.map (applyRen [("b", "bb")])).Nodup
    decide

/-- C5: on tabular data, `add_data` with a literal sequence whose length
differs from the row count fails with a `DataFormatError` and leaves the
state (and in particular the key list) unchanged; with a formula whose
expression evaluation fails it falls back to a bare existing-column
alias — succeeding when the stripped right-hand side names a uniquely
labelled existing column, and raising a `DataFormatError` when the
fallback itself fails, either because the name is absent or because the
label is duplicated (pandas then refuses to assign the multi-column
selection to one column); a key already present is overwritten — the
call succeeds and the key list is unchanged — rather than rejected. -/
theorem C5_add_data_contracts :
    (∀ (O : EvalOracle) (st : PandasSt) (key : String) (vals : List ℚ),
      vals.length ≠ st.df.nrows →
        ∃ msg, addData O st key (.direct vals) = (st, some (.dataFormat msg)))
    ∧ (∀ (O : EvalOracle) (st : PandasSt) (key f e : String),
        O st.df (splitFormula f) = .error e →
        st.df.getSeries? (pyStrip (splitFormula f)) ≠ none →
        pyStrip (splitFormula f) ∈ st.df.colNames →
        addData O st key (.formula f) =
          ({ df := st.df.setCol key
               ((st.df.getSeries? (pyStrip (splitFormula f))).getD []),
             keys := if key ∈ st.keys then st.keys else st.keys ++ [key] }, none))
    ∧ (∀ (O : EvalOracle) (st : PandasSt) (key f e : String),
        O st.df (splitFormula f) = .error e →
        pyStrip (splitFormula f) ∉ st.df.colNames →
        ∃ msg, addData O st key (.formula f) = (st, some (.dataFormat msg)))
    ∧ (∀ (O : EvalOracle) (st : PandasSt) (key f e : String),
        O st.df (splitFormula f) = .error e →
        pyStrip (splitFormula f) ∈ st.df.colNames →
        st.df.getSeries? (pyStrip (splitFormula f)) = none →
        ∃ msg, addData O st key (.formula f) = (st, some (.dataFormat msg)))
    ∧ (∀ (O : EvalOracle) (st : PandasSt) (key : String) (input : AddInput),
        key ∈ st.keys → (addData O st key input).1.keys = st.keys)
    ∧ (∀ (O : EvalOracle) (st : PandasSt) (key : String) (vals : List ℚ),
        vals.length = st.df.nrows →
        addData O st key (.direct vals) =
          ({ df := st.df.setCol key vals,
             keys := if key ∈ st.keys then st.keys else st.keys ++ [key] }, none)) := by
  refine ⟨?_, ?_, ?_, ?_, ?_, ?_⟩
  · intro O st key vals hlen
    exact ⟨"Failed to add data for key " ++ key ++
      ": length does not match DataFrame length", by simp [addData, hlen]⟩
  · intro O st key f e hO hser halias
    cases hser2 : st.df.getSeries? (pyStrip (splitFormula f)) with
    | none => exact absurd hser2 hser
    | some series => simp [addData, addFormula, hO, halias, hser2]
  · intro O st key f e hO halias
    exact ⟨"Failed to add data for key " ++ key ++ ": " ++
      ("Failed to evaluate formula " ++ f ++ ": " ++ e),
      by simp [addData, addFormula, hO, halias]⟩
  · intro O st key f e hO halias hser
    exact ⟨"Failed to add data for key " ++ key ++ ": " ++
      ("Failed to evaluate formula " ++ f ++
        ": cannot set a DataFrame with multiple columns to the single column " ++
        key),
      by simp [addData, addFormula, hO, halias, hser]⟩
  · intro O st key input hmem
    cases input with
    | formula f =>
        simp only [addData, addFormula]
        cases O st.df (splitFormula f) with
        | ok vals => simp [hmem]
        | error e =>
            by_cases halias : pyStrip (splitFormula f) ∈ st.df.colNames
            · cases hser : st.df.getSeries? (pyStrip (splitFormula f)) with
              | some series => simp [halias, hser, hmem]
              | none => simp [halias, hser, hmem]
            · simp [halias, hmem]
    | direct vals =>
        simp only [addData]
        by_cases hlen : vals.length ≠ st.df.nrows <;> simp [hlen, hmem]
    | unsupported => rfl
  · intro O st key vals hlen
    simp [addData, hlen]

/-- A tabular state with a duplicated `b` label (as left by a rename
collision) plus a unique `a` column. -/
def pandasDupB : PandasSt :=
  { df := { nrows := 1, cols := [("b", [1]), ("b", [2]), ("a", [3])] },
    keys := ["b", "b", "a"] }

theorem C5_add_data_contracts_witness :
    (∃ msg, addData oracleFail pandasEx "c" (.direct [1, 2]) =
        (pandasEx, some (.dataFormat msg)))
    ∧ addData oracleFail pandasEx "P" (.formula "P = b") =
        ({ df := { nrows := 1, cols := [("a", [1]), ("b", [2]), ("P", [2])] },
           keys := ["a", "b", "P"] }, none)
    ∧ (∃ msg, addData oracleFail pandasEx "Q" (.formula "Q = zz * 2") =
        (pandasEx, some (.dataFormat msg)))
    ∧ (∃ msg, addData oracleFail pandasDupB "P" (.formula "P = b") =
        (pandasDupB, some (.dataFormat msg)))
    ∧ (addData oracleFail pandasEx "a" (.direct [5])).1.keys = pandasEx.keys := by
  refine ⟨?_, ?_, ?_, ?_, ?_⟩
  · exact C5_add_data_contracts.1 oracleFail pandasEx "c" [1, 2] (by decide)
  · have h := C5_add_data_contracts.2.1 oracleFail pandasEx "P" "P = b" "eval failed"
      rfl (by decide) (by decide)
    rw [h]
    decide
  · exact C5_add_data_contracts.2.2.1 oracleFail pandasEx "Q" "Q = zz * 2" "eval failed"
      rfl (by decide)
  · exact C5_add_data_contracts.2.2.2.1 oracleFail pandasDupB "P" "P = b" "eval failed"
      rfl (by decide) (by decide)
  · exact C5_add_data_contracts.2.2.2.2.1 oracleFail pandasEx "a" (.direct [5]) (by decide)

theorem alookup_filter_mem {β : Type} (m : List (String × β)) (keys : List String)
    (n : String) (hn : n ∈ keys) :
    alookup (m.filter (fun p => p.1 ∈ keys)) n = alookup m n := by
  induction m with
  | nil => rfl
  | cons p t ih =>
      by_cases hp : p.1 = n
      · have hpin : p.1 ∈ keys := hp ▸ hn
        simp [List.filter_cons, hpin, alookup, hp, hn]
      · by_cases hk : p.1 ∈ keys
        · simp [List.filter_cons, hk, alookup, hp, ih]
        · simp [List.filter_cons, hk, alookup, hp, ih]

/-- C10 (amended): `remove_data` silently ignores names not currently in
`keys`: the call behaves exactly like the call restricted to the present
names (the absent ones contribute nothing, raising nothing), and for a
request that does not repeat a present name it completes without error,
removing exactly the present ones; a request repeating a present name,
however, aborts mid-loop with `ValueError` from `list.remove`.
`rename_data` silently ignores mapping entries whose old name is absent;
by contrast `get_data` on an absent key raises `KeyNotFoundError` via
`validate_keys`. -/
theorem C10_absent_keys_ignored_but_get_raises :
    (∀ (st : PandasSt) (ks : List String),
      removeData st ks = removeData st (ks.filter (fun k => k ∈ st.keys)))
    ∧ (∀ (st : PandasSt) (ks : List String), ks.Nodup →
      (removeData st ks).2 = none)
    ∧ (∀ (st : PandasSt) (m : List (String × String)), st.keys = st.df.colNames →
      renameData st m = renameData st (m.filter (fun p => p.1 ∈ st.keys)))
    ∧ (∀ (st : PandasSt) (k : String), k ∉ st.keys →
      ∃ msg, st.get_data (some [k]) = .error (.keyNotFound msg)) := by
  refine ⟨?_, ?_, ?_, ?_⟩
  · intro st ks
    have hE : (ks.filter (fun k => k ∈ st.keys)).filter (fun k => k ∈ st.keys) =
        ks.filter (fun k => k ∈ st.keys) := by
      rw [List.filter_filter]
      apply List.filter_congr
      intro a _
      by_cases h : a ∈ st.keys <;> simp [h]
    simp only [removeData, hE]
  · intro st ks hnd
    simp only [removeData]
    by_cases he : (ks.filter (fun k => k ∈ st.keys)).isEmpty
    · rw [if_pos he]
    · rw [if_neg he]
      rw [removeKeysLoop_complete _ _ (hnd.filter _)
        (fun k hmem => by simpa using (List.mem_filter.mp hmem).2)]
  · intro st m hk
    have hcols : st.df.renameCols (m.filter (fun p => p.1 ∈ st.keys)) =
        st.df.renameCols m := by
      simp only [DataFrame.renameCols]
      congr 1
      apply List.map_congr_left
      intro c hc
      have hcmem : c.1 ∈ st.keys := by
        rw [hk]
        exact List.mem_map.mpr ⟨c, hc, rfl⟩
      simp [applyRen, alookup_filter_mem m st.keys c.1 hcmem]
    simp only [renameData, hcols]
  · intro st k hku
    refine ⟨"Keys not found: " ++ String.intercalate ", " [k], ?_⟩
    simp [PandasSt.get_data, validateKeysL, List.filter_cons, hku]

/-- C10 counterexample: a request list that repeats the present name `b`
raises: the frame drops the label, the first `list.remove` erases it, and
the second aborts with `ValueError` — refuting the claim that
`remove_data` never raises for every list of key names. -/
theorem C10_counterexample_duplicate_present_name_raises :
    (∀ k ∈ ["b", "b"], k ∈ pandasEx.keys)
    ∧ (removeData pandasEx ["b", "b"]).2 =
        some (.valueError "list.remove(x): x not in list") := by
  refine ⟨?_, ?_⟩ <;> decide

theorem C10_absent_keys_ignored_but_get_raises_witness :
    removeData pandasEx ["zz", "a"] =
        removeData pandasEx (["zz", "a"].filter (fun k => k ∈ pandasEx.keys))
    ∧ (removeData pandasEx ["zz", "a"]).2 = none
    ∧ renameData pandasEx [("zz", "w"), ("a", "aa")] =
        renameData pandasEx
          ([("zz", "w"), ("a", "aa")].filter (fun p => p.1 ∈ pandasEx.keys))
    ∧ (∃ msg, pandasEx.get_data (some ["zz"]) = .error (.keyNotFound msg)) :=
  ⟨C10_absent_keys_ignored_but_get_raises.1 pandasEx ["zz", "a"],
   C10_absent_keys_ignored_but_get_raises.2.1 pandasEx ["zz", "a"] (by decide),
   C10_absent_keys_ignored_but_get_raises.2.2.1 pandasEx [("zz", "w"), ("a", "aa")]
     (by decide),
   C10_absent_keys_ignored_but_get_raises.2.2.2 pandasEx "zz" (by decide)⟩

/-- C9: the `keys` property returns a fresh copy of `self._keys`: the
returned list lives at a new address, and overwriting it with any value
leaves the instance's `_keys` cell — hence a subsequent `keys` read, and
`validate_keys`/`get_data` behavior built on it — unchanged. -/
theorem C9_keys_property_returns_fresh_copy :
    ∀ (h : List (List String)) (obj : PyBaseDataRef), obj.keysAddr < h.length →
      ((keys_property h obj).2 ≠ obj.keysAddr)
      ∧ (∀ v, readCell (writeCell (keys_property h obj).1 (keys_property h obj).2 v)
            obj.keysAddr = readCell h obj.keysAddr)
      ∧ (∀ v, readCell (keys_property
            (writeCell (keys_property h obj).1 (keys_property h obj).2 v) obj).1
            (keys_property
              (writeCell (keys_property h obj).1 (keys_property h obj).2 v) obj).2 =
          readCell h obj.keysAddr)
      ∧ (∀ v ks, validateKeysL (readCell (writeCell (keys_property h obj).1
            (keys_property h obj).2 v) obj.keysAddr) ks =
          validateKeysL (readCell h obj.keysAddr) ks)
      ∧ (∀ v (df : DataFrame) ks,
          PandasSt.get_data ⟨df, readCell (writeCell (keys_property h obj).1
            (keys_property h obj).2 v) obj.keysAddr⟩ ks =
          PandasSt.get_data ⟨df, readCell h obj.keysAddr⟩ ks) := by
  intro h obj hlt
  have haddr : (keys_property h obj).2 = h.length := rfl
  have hne : (keys_property h obj).2 ≠ obj.keysAddr := by
    rw [haddr]; exact fun heq => absurd (heq ▸ hlt) (lt_irrefl _)
  have hread : ∀ v, readCell (writeCell (keys_property h obj).1
      (keys_property h obj).2 v) obj.keysAddr = readCell h obj.keysAddr := by
    intro v
    show ((((h ++ [readCell h obj.keysAddr]).set h.length v))[obj.keysAddr]?).getD [] = _
    rw [List.getElem?_set_ne (by exact fun heq => absurd (heq ▸ hlt) (lt_irrefl _))]
    rw [List.getElem?_append_left hlt]
    rfl
  refine ⟨hne, hread, ?_, ?_, ?_⟩
  · intro v
    show readCell ((writeCell (keys_property h obj).1 (keys_property h obj).2 v) ++
      [readCell (writeCell (keys_property h obj).1 (keys_property h obj).2 v)
        obj.keysAddr]) (writeCell (keys_property h obj).1
          (keys_property h obj).2 v).length = _
    rw [show readCell ((writeCell (keys_property h obj).1 (keys_property h obj).2 v) ++
        [readCell (writeCell (keys_property h obj).1 (keys_property h obj).2 v)
          obj.keysAddr]) (writeCell (keys_property h obj).1
            (keys_property h obj).2 v).length =
        readCell (writeCell (keys_property h obj).1 (keys_property h obj).2 v)
          obj.keysAddr from by
      show (_ : Option (List String)).getD [] = _
      rw [List.getElem?_concat_length]
      rfl]
    exact hread v
  · intro v ks
    rw [hread v]
  · intro v df ks
    rw [hread v]

/-- A one-object heap: the instance's `_keys` list lives at address 0. -/
def heapEx : List (List String) := [["a", "b"]]

/-- The instance whose `_keys` cell is address 0. -/
def objEx : PyBaseDataRef := { keysAddr := 0 }

theorem C9_keys_property_returns_fresh_copy_witness :
    ((keys_property heapEx objEx).2 ≠ objEx.keysAddr)
    ∧ readCell (writeCell (keys_property heapEx objEx).1
        (keys_property heapEx objEx).2 ["hacked"]) objEx.keysAddr = ["a", "b"] := by
  have h := C9_keys_property_returns_fresh_copy heapEx objEx (by decide)
  exact ⟨h.1, by rw [h.2.1 ["hacked"]]; decide⟩

theorem summary_results_eq (env : ValidationEnv) (keys : List String)
    (hnd : keys.Nodup) :
    keys.foldl (fun acc k => upsert acc k (validate_field_data env k)) [] =
      keys.map (fun k => (k, validate_field_data env k)) := by
  have h1 : keys.foldl (fun acc k => upsert acc k (validate_field_data env k)) [] =
      (keys.map (fun k => (k, validate_field_data env k))).foldl
        (fun acc p => upsert acc p.1 p.2) [] := by
    rw [List.foldl_map]
  rw [h1]
  apply foldl_upsert_self
  have h2 : (keys.map (fun k => (k, validate_field_data env k))).map Prod.fst = keys := by
    rw [List.map_map]
    show List.map (fun k : String => k) keys = keys
    exact List.map_id keys
  rw [h2]
  exact hnd

theorem validate_field_data_of_none (env : ValidationEnv) (k : String)
    (hget : env.getField k = none) :
    validate_field_data env k = .no_field_definition := by
  unfold validate_field_data
  rw [hget]

theorem validate_field_data_of_fetch_error (env : ValidationEnv) (k : String)
    (f : Field) (e : String) (hget : env.getField k = some f)
    (hfetch : env.fetch k = .error e) :
    validate_field_data env k = .error := by
  unfold validate_field_data
  rw [hget, hfetch]

theorem validate_field_data_of_fetch_ok (env : ValidationEnv) (k : String)
    (f : Field) (cells : List Cell) (hget : env.getField k = some f)
    (hfetch : env.fetch k = .ok cells) :
    validate_field_data env k =
      if f.field_type ≠ FieldType.INDEX then
        (if (cells.filter Cell.notNull).any Cell.isNonScalar then
          (if 0 < (cells.filter Cell.notNull).length then VStatus.mostly_valid
           else VStatus.invalid)
        else if (cells.filter Cell.notNull).countP (fun c => Cell.isBad c) = 0 then
          VStatus.valid
        else if (cells.filter Cell.notNull).countP (fun c => Cell.isBad c) <
            (cells.filter Cell.notNull).length -
              (cells.filter Cell.notNull).countP (fun c => Cell.isBad c) then
          VStatus.mostly_valid
        else VStatus.invalid)
      else VStatus.valid := by
  unfold validate_field_data
  rw [hget, hfetch]

/-- C6 (amended): with at least one (distinct) key, the validation
summary's aggregates are exactly `coverage_percent = bound / total * 100`
and `quality_percent = (valid + mostly_valid) / total * 100`, each count
reproducible from the per-key classification. The per-key classification
is: `no_field_definition` exactly for unbound keys; `error` (counted as
invalid in the aggregates) when fetching the key's data raises; for
fetched non-index fields whose values numeric coercion can process,
`valid`/`mostly_valid`/`invalid` according to whether no, a minority, or
at least half of the non-null values fail to parse; but a hard error
inside the numeric validation itself (`pd.to_numeric` raising on a
non-scalar value) leaves `invalid_values` at zero and yields
`mostly_valid` whenever any non-null value exists (`invalid` only when
none do), not `invalid`. -/
theorem C6_validation_summary_formulas :
    ∀ (env : ValidationEnv) (keys : List String), keys ≠ [] → keys.Nodup →
      ((get_field_validation_summary env keys).total_fields = keys.length
      ∧ (get_field_validation_summary env keys).coverage_percent =
          ((keys.countP (fun k => (env.getField k).isSome) : ℚ) /
            (keys.length : ℚ)) * 100
      ∧ (get_field_validation_summary env keys).quality_percent =
          (((keys.countP (fun k => validate_field_data env k = .valid) : ℚ) +
            (keys.countP (fun k => validate_field_data env k = .mostly_valid) : ℚ)) /
            (keys.length : ℚ)) * 100
      ∧ (get_field_validation_summary env keys).valid_fields =
          keys.countP (fun k => validate_field_data env k = .valid)
      ∧ (get_field_validation_summary env keys).mostly_valid_fields =
          keys.countP (fun k => validate_field_data env k = .mostly_valid)
      ∧ (get_field_validation_summary env keys).invalid_fields =
          keys.countP (fun k => validate_field_data env k = .invalid ∨
            validate_field_data env k = .error)
      ∧ (get_field_validation_summary env keys).undefined_fields =
          keys.countP (fun k => validate_field_data env k = .no_field_definition)
      ∧ (∀ k, validate_field_data env k = .no_field_definition ↔ env.getField k = none)
      ∧ (∀ k f e, env.getField k = some f → env.fetch k = .error e →
          validate_field_data env k = .error)
      ∧ (∀ k f cells, env.getField k = some f → env.fetch k = .ok cells →
          f.field_type ≠ .INDEX →
          (cells.filter Cell.notNull).any Cell.isNonScalar = false →
          ((validate_field_data env k = .valid ↔
            (cells.filter Cell.notNull).countP Cell.isBad = 0)
          ∧ (validate_field_data env k = .mostly_valid ↔
              0 < (cells.filter Cell.notNull).countP Cell.isBad ∧
              (cells.filter Cell.notNull).countP Cell.isBad <
                (cells.filter Cell.notNull).length -
                  (cells.filter Cell.notNull).countP Cell.isBad)
          ∧ (validate_field_data env k = .invalid ↔
              0 < (cells.filter Cell.notNull).countP Cell.isBad ∧
              (cells.filter Cell.notNull).length -
                (cells.filter Cell.notNull).countP Cell.isBad ≤
                (cells.filter Cell.notNull).countP Cell.isBad)))
      ∧ (∀ k f cells, env.getField k = some f → env.fetch k = .ok cells →
          f.field_type ≠ .INDEX →
          (cells.filter Cell.notNull).any Cell.isNonScalar = true →
          validate_field_data env k =
            (if 0 < (cells.filter Cell.notNull).length then VStatus.mostly_valid
             else VStatus.invalid))) := by
  intro env keys hne hnd
  have hres := summary_results_eq env keys hnd
  have hlen : (keys.map (fun k => (k, validate_field_data env k))).length =
      keys.length := by simp
  have hnfd : ∀ k, validate_field_data env k = .no_field_definition ↔
      env.getField k = none := by
    intro k
    cases hget : env.getField k with
    | none => simp [validate_field_data_of_none env k hget]
    | some f =>
        cases hfetch : env.fetch k with
        | error e => simp [validate_field_data_of_fetch_error env k f e hget hfetch]
        | ok cells =>
            rw [validate_field_data_of_fetch_ok env k f cells hget hfetch]
            split_ifs <;> simp
  have hpos : 0 < keys.length := List.length_pos.mpr hne
  have hsplit : keys.countP (fun k => (env.getField k).isSome) +
      keys.countP (fun k => validate_field_data env k = .no_field_definition) =
        keys.length := by
    have h1 : keys.countP (fun k => validate_field_data env k = .no_field_definition) =
        keys.countP (fun k => ¬ (env.getField k).isSome) := by
      apply List.countP_congr
      intro k _
      simp only [decide_eq_true_eq, hnfd k, Option.isSome]
      cases env.getField k <;> simp
    rw [h1]
    exact (List.length_eq_countP_add_countP
      (fun k => (env.getField k).isSome) keys).symm
  refine ⟨?_, ?_, ?_, ?_, ?_, ?_, ?_, hnfd, ?_, ?_, ?_⟩
  · show (keys.foldl (fun acc k => upsert acc k (validate_field_data env k)) []).length = _
    rw [hres, hlen]
  · show (if 0 < (keys.foldl (fun acc k =>
        upsert acc k (validate_field_data env k)) []).length then _ else _) = _
    rw [hres, hlen, if_pos hpos]
    have hundef : (keys.map (fun k => (k, validate_field_data env k))).countP
        (fun r => r.2 = VStatus.no_field_definition) =
          keys.countP (fun k => validate_field_data env k = .no_field_definition) := by
      rw [List.countP_map]; rfl
    rw [hundef]
    have hcast : (keys.countP (fun k => (env.getField k).isSome) : ℚ) =
        (keys.length : ℚ) -
          (keys.countP (fun k => validate_field_data env k = .no_field_definition) : ℚ) := by
      have h3 := hsplit
      push_cast [← h3]
      ring
    rw [hcast]
  · show (if 0 < (keys.foldl (fun acc k =>
        upsert acc k (validate_field_data env k)) []).length then _ else _) = _
    rw [hres, hlen, if_pos hpos]
    rw [show (keys.map (fun k => (k, validate_field_data env k))).countP
        (fun r => r.2 = VStatus.valid) =
          keys.countP (fun k => validate_field_data env k = .valid) from by
      rw [List.countP_map]; rfl]
    rw [show (keys.map (fun k => (k, validate_field_data env k))).countP
        (fun r => r.2 = VStatus.mostly_valid) =
          keys.countP (fun k => validate_field_data env k = .mostly_valid) from by
      rw [List.countP_map]; rfl]
  · show (keys.foldl (fun acc k => upsert acc k (validate_field_data env k)) []).countP
        (fun r => r.2 = VStatus.valid) = _
    rw [hres, List.countP_map]; rfl
  · show (keys.foldl (fun acc k => upsert acc k (validate_field_data env k)) []).countP
        (fun r => r.2 = VStatus.mostly_valid) = _
    rw [hres, List.countP_map]; rfl
  · show (keys.foldl (fun acc k => upsert acc k (validate_field_data env k)) []).countP
        (fun r => r.2 = VStatus.invalid ∨ r.2 = VStatus.error) = _
    rw [hres, List.countP_map]; rfl
  · show (keys.foldl (fun acc k => upsert acc k (validate_field_data env k)) []).countP
        (fun r => r.2 = VStatus.no_field_definition) = _
    rw [hres, List.countP_map]; rfl
  · intro k f e hget hfetch
    exact validate_field_data_of_fetch_error env k f e hget hfetch
  · intro k f cells hget hfetch hidx hscalar
    rw [validate_field_data_of_fetch_ok env k f cells hget hfetch, if_pos hidx,
      hscalar]
    simp only [Bool.false_eq_true, if_false]
    have hbad : (cells.filter Cell.notNull).countP (fun c => Cell.isBad c) =
        (cells.filter Cell.notNull).countP Cell.isBad := rfl
    rw [hbad]
    by_cases h0 : (cells.filter Cell.notNull).countP Cell.isBad = 0
    · rw [if_pos h0]
      refine ⟨by simp [h0], by simp [h0], by simp [h0]⟩
    · rw [if_neg h0]
      by_cases h1 : (cells.filter Cell.notNull).countP Cell.isBad <
          (cells.filter Cell.notNull).length -
            (cells.filter Cell.notNull).countP Cell.isBad
      · rw [if_pos h1]
        refine ⟨by simp [h0], ?_, ?_⟩
        · simp only [true_iff]
          exact ⟨Nat.pos_of_ne_zero h0, h1⟩
        · constructor
          · intro hcon; cases hcon
          · rintro ⟨-, hge⟩
            exact absurd h1 (not_lt.mpr hge)
      · rw [if_neg h1]
        refine ⟨by simp [h0], ?_, ?_⟩
        · constructor
          · intro hcon; cases hcon
          · rintro ⟨-, hlt⟩
            exact absurd hlt h1
        · constructor
          · intro _
            exact ⟨Nat.pos_of_ne_zero h0, not_lt.mp h1⟩
          · intro _
            rfl
  · intro k f cells hget hfetch hidx hscalar
    rw [validate_field_data_of_fetch_ok env k f cells hget hfetch, if_pos hidx,
      hscalar]
    rw [if_pos rfl]

/-- A concrete validation environment: `Field` and `Current` are bound,
`Extra` is not; `Current` has one unparseable value out of three. -/
def envEx : ValidationEnv :=
  { getField := fun k =>
      if k = "Field" then some (mkField "Field" .MAGNETIC_FIELD "tesla" "B" "field")
      else if k = "Current" then some (mkField "Current" .CURRENT "ampere" "I" "current")
      else none,
    fetch := fun k => if k = "Current" then .ok [.num 1, .num 2, .bad] else .ok [.num 2] }

/-- An environment whose single bound key holds a non-scalar value, on
which `pd.to_numeric` raises even with coercion. -/
def envHard : ValidationEnv :=
  { getField := fun _ => some (mkField "Field" .MAGNETIC_FIELD "tesla" "B" "field"),
    fetch := fun _ => .ok [.num 1, .nonScalar] }

/-- C6 counterexample: a hard error inside numeric validation (the inner
`try` around `pd.to_numeric`) is classified `mostly_valid`, not
`invalid`: the key with a non-scalar value reaches the validation-error
branch, yet its status is `mostly_valid` and the summary counts it as
good, reporting `quality_percent = 100` and `invalid_fields = 0` —
refuting the claim that a key where a hard error occurs is classified
invalid. -/
theorem C6_counterexample_inner_hard_error_not_invalid :
    envHard.fetch "X" = .ok [.num 1, .nonScalar]
    ∧ validate_field_data envHard "X" = .mostly_valid
    ∧ validate_field_data envHard "X" ≠ .invalid
    ∧ (get_field_validation_summary envHard ["X"]).invalid_fields = 0
    ∧ (get_field_validation_summary envHard ["X"]).mostly_valid_fields = 1
    ∧ (get_field_validation_summary envHard ["X"]).quality_percent = 100 := by
  refine ⟨rfl, by decide, by decide, by decide, by decide, ?_⟩
  have hval : (get_field_validation_summary envHard ["X"]).quality_percent =
      (((0 : ℕ) : ℚ) + ((1 : ℕ) : ℚ)) / ((1 : ℕ) : ℚ) * 100 := rfl
  rw [hval]
  push_cast
  norm_num

theorem C6_validation_summary_formulas_witness :
    (get_field_validation_summary envEx ["Field", "Current", "Extra"]).coverage_percent =
      ((["Field", "Current", "Extra"].countP
          (fun k => (envEx.getField k).isSome) : ℚ) /
        ((["Field", "Current", "Extra"] : List String).length : ℚ)) * 100
    ∧ (get_field_validation_summary envEx ["Field", "Current", "Extra"]).quality_percent =
      (((["Field", "Current", "Extra"].countP
            (fun k => validate_field_data envEx k = .valid) : ℚ) +
          (["Field", "Current", "Extra"].countP
            (fun k => validate_field_data envEx k = .mostly_valid) : ℚ)) /
        ((["Field", "Current", "Extra"] : List String).length : ℚ)) * 100 :=
  ⟨(C6_validation_summary_formulas envEx ["Field", "Current", "Extra"]
      (by decide) (by decide)).2.1,
   (C6_validation_summary_formulas envEx ["Field", "Current", "Extra"]
      (by decide) (by decide)).2.2.1⟩

/-- C7 (amended): there is no single three-tier resolver. The
`ConfigManager` short-circuits on its own in-memory cache before touching
disk, and `BaseData._load_format_definition` falls back from the
`ConfigManager` store to the formats registry's in-memory definition
table, which is loaded from the registry's configs directory and contains
no programmatic built-ins — so with zero configuration files that chain
resolves nothing, including `pupitre`, `pigbrother` and `bprofile`. The
programmatically generated built-in defaults live only in the separate
`core.fields` registry, whose single-tier `get_format` lookup resolves
those three names with no configuration files involved. -/
theorem C7_format_resolution_amended :
    (∀ (cm : ConfigManagerSt) (ty name : String) (d : FormatDict),
      alookup cm.cache (ty ++ ":" ++ name) = some d →
      ∀ g, (load_config { cm with disk := g } ty name).1 = some d)
    ∧ (∀ (cm : ConfigManagerSt) (ty name : String) (d : FormatDict),
      alookup cm.cache (ty ++ ":" ++ name) = none → cm.disk ty name = some d →
      (load_config cm ty name).1 = some d)
    ∧ (∀ (cm : ConfigManagerSt) (regDefs : List (String × FormatDefinition))
        (name : String),
      alookup cm.cache ("format" ++ ":" ++ name) = none → cm.disk "format" name = none →
      (base_data_load_format_definition cm regDefs name).1 = alookup regDefs name)
    ∧ core_fields_get_format "pupitre" = some create_pupitre_format
    ∧ core_fields_get_format "bprofile" = some create_bprofile_format
    ∧ core_fields_get_format "pigbrother" = some create_pigbrother_format := by
  refine ⟨?_, ?_, ?_, by decide, by decide, by decide⟩
  · intro cm ty name d hcache g
    simp [load_config, hcache]
  · intro cm ty name d hcache hdisk
    simp [load_config, hcache, hdisk]
  · intro cm regDefs name hcache hdisk
    have hcache2 : alookup cm.cache ("format:" ++ name) = none := by
      simpa using hcache
    simp [base_data_load_format_definition, load_config, hcache2, hdisk]

/-- C7 counterexample: with an empty `ConfigManager` store and an empty
configs directory, the `BaseData` resolution chain — the one that goes
through the `ConfigManager`-backed JSON store — yields no definition for
any of the three built-in format names, refuting the claim that the
cache/store chain falls back to programmatic built-in defaults so that
those names always resolve. -/
theorem C7_counterexample_zero_config_resolution_fails :
    (base_data_load_format_definition emptyConfigManager
        (registry_load_format_definitions []) "pupitre").1 = none
    ∧ (base_data_load_format_definition emptyConfigManager
        (registry_load_format_definitions []) "pigbrother").1 = none
    ∧ (base_data_load_format_definition emptyConfigManager
        (registry_load_format_definitions []) "bprofile").1 = none :=
  ⟨rfl, rfl, rfl⟩

/-- A `ConfigManager` whose cache already holds a parsed `demo` format. -/
def cmCachedEx : ConfigManagerSt :=
  { cache := [("format:demo", fdBase.to_dict)], disk := fun _ _ => none }

theorem C7_format_resolution_amended_witness :
    (load_config { cmCachedEx with disk := fun _ _ => some fdOverlay.to_dict }
        "format" "demo").1 = some fdBase.to_dict
    ∧ (base_data_load_format_definition emptyConfigManager
        (registry_load_format_definitions [fdBase.to_dict]) "demo").1 =
      alookup (registry_load_format_definitions [fdBase.to_dict]) "demo"
    ∧ core_fields_get_format "pupitre" = some create_pupitre_format :=
  ⟨C7_format_resolution_amended.1 cmCachedEx "format" "demo" fdBase.to_dict
      (by decide) (fun _ _ => some fdOverlay.to_dict),
   C7_format_resolution_amended.2.2.1 emptyConfigManager
      (registry_load_format_definitions [fdBase.to_dict]) "demo" (by decide) rfl,
   C7_format_resolution_amended.2.2.2.1⟩

end Magnetrun
